import Mathlib

/-!
Verification development for the `0.20-bot` repository.

The repository has two Python scripts:
  * `src/bot_020.py` — a 4h-high near/break/sell signal bot over the top-50
    gainers universe;
  * `src/bot_3m_muboh.py` — a 3m pullback-breakout buy/trail-sell bot.

We shallowly embed the signal logic: prices are rational numbers, Python
`dict` state is a Lean structure, the Telegram sends become boolean
"fired" flags, and candle-open timestamps are naturals.  Python truthiness
(`if not last4h_high: ...`) is modelled explicitly, since `None`, `0` and
`0.0` are all falsy there.
-/

/- Batteries marks the `Rat` arithmetic operations `@[irreducible]`, which
blocks `decide`-style evaluation of the embedded functions on concrete
rational inputs; restore the default reducibility (kernel checking is
unaffected by reducibility annotations). -/
set_option allowUnsafeReducibility true in
attribute [semireducible] Rat.add Rat.mul Rat.sub Rat.inv Rat.ofScientific

/-- A kline/candle, as parsed by `get_klines` in `src/bot_020.py`. -/
structure Candle where
  open_time : Nat
  opn : ℚ
  high : ℚ
  low : ℚ
  close : ℚ
  close_time : Nat
  deriving DecidableEq, Repr

/-- Per-symbol state dictionary, mirroring the keys created by `sym_state`
in `src/bot_020.py`.  Price fields are `Option ℚ` (Python `None` or a
float), epoch fields are `Option Nat` (Python `None` or an open-time). -/
structure SymState where
  last_1d_closed_open : Option Nat
  last_1w_closed_open : Option Nat
  last_4h_closed_open : Option Nat
  last_15m_closed_open : Option Nat
  last_4h_high : Option ℚ
  last_15m_low : Option ℚ
  near_sent_for_4h : Option Nat
  break_sent_for_4h : Option Nat
  upmove_active : Bool
  upmove_started_4h : Option Nat
  sell_sent_15m : Option Nat
  sell_once_done_for_break : Option Nat
  deriving DecidableEq, Repr

/-- The fresh per-symbol state built by `sym_state` on first observation. -/
def initSymState : SymState where
  last_1d_closed_open := none
  last_1w_closed_open := none
  last_4h_closed_open := none
  last_15m_closed_open := none
  last_4h_high := none
  last_15m_low := none
  near_sent_for_4h := none
  break_sent_for_4h := none
  upmove_active := false
  upmove_started_4h := none
  sell_sent_15m := none
  sell_once_done_for_break := none

/-- Python truthiness of an optional float: `None`, `0.0` are falsy. -/
def truthyQ : Option ℚ → Bool
  | none => false
  | some v => decide (v ≠ 0)

/-- Python truthiness of an optional int: `None`, `0` are falsy. -/
def truthyNat : Option Nat → Bool
  | none => false
  | some v => decide (v ≠ 0)

/-- Which Telegram messages `handle_signals` sent during one price
observation: `near` = "🟨 near the max", `brk` = "🟩 price break the max",
`sell` = "🟥 SELL (once)". -/
structure Fired where
  near : Bool
  brk : Bool
  sell : Bool
  deriving DecidableEq, Repr

/-- Section 1 of `handle_signals` (bot_020 lines 325–350): near-the-max.
`L` is the local `last4h_high`, `e` the local `last4h_open`. -/
def nearStep (nearPct L : ℚ) (e : Nat) (ss : SymState) (price : ℚ) :
    SymState × Bool :=
  if L * (1 - nearPct) ≤ price ∧ price < L then
    if ss.near_sent_for_4h ≠ some e then
      ({ ss with near_sent_for_4h := some e }, true)
    else (ss, false)
  else (ss, false)

/-- Section 2 of `handle_signals` (bot_020 lines 352–368): break-the-max,
which also starts the upmove and resets the sell-once latch. -/
def breakStep (L : ℚ) (e : Nat) (ss : SymState) (price : ℚ) :
    SymState × Bool :=
  if L ≤ price then
    if ss.break_sent_for_4h ≠ some e then
      ({ ss with
          break_sent_for_4h := some e
          upmove_active := true
          upmove_started_4h := some e
          sell_once_done_for_break := none }, true)
    else (ss, false)
  else (ss, false)

/-- Section 3 of `handle_signals` (bot_020 lines 370–393): SELL, only once
after each break. -/
def sellStep (ss : SymState) (price : ℚ) : SymState × Bool :=
  if ss.upmove_active then
    if ss.sell_once_done_for_break = ss.upmove_started_4h then (ss, false)
    else
      if truthyQ ss.last_15m_low ∧ truthyNat ss.last_15m_closed_open then
        if price < ss.last_15m_low.getD 0 then
          ({ ss with sell_once_done_for_break := ss.upmove_started_4h }, true)
        else (ss, false)
      else (ss, false)
  else (ss, false)

/-- `handle_signals` of `src/bot_020.py` for one symbol and one polled
price: guard on truthiness of `last_4h_high`, `last_4h_closed_open`,
`last_1d_closed_open`, then the three sections in source order
(near, break, sell). -/
def handle_signals (nearPct : ℚ) (ss : SymState) (price : ℚ) :
    SymState × Fired :=
  if truthyQ ss.last_4h_high ∧ truthyNat ss.last_4h_closed_open ∧
      truthyNat ss.last_1d_closed_open then
    let L := ss.last_4h_high.getD 0
    let e := ss.last_4h_closed_open.getD 0
    let r1 := nearStep nearPct L e ss price
    let r2 := breakStep L e r1.1 price
    let r3 := sellStep r2.1 price
    (r3.1, ⟨r1.2, r2.2, r3.2⟩)
  else (ss, ⟨false, false, false⟩)

/-- Run `handle_signals` over a sequence of polled prices, collecting the
fired flags of each observation (no kline refresh in between). -/
def runPrices (nearPct : ℚ) : SymState → List ℚ → SymState × List Fired
  | ss, [] => (ss, [])
  | ss, p :: ps =>
    let r := handle_signals nearPct ss p
    let rest := runPrices nearPct r.1 ps
    (rest.1, r.2 :: rest.2)

/-- The `interval == "4h"` branch of `refresh_symbol_klines_cached`
(bot_020 lines 298–303): on a changed last-closed open-time, rearm the 4h
level and reset the sent flags. `o`/`hi` are the observed last-closed
candle's open-time and high. -/
def refresh_4h (ss : SymState) (o : Nat) (hi : ℚ) : SymState :=
  if ss.last_4h_closed_open ≠ some o then
    { ss with
        last_4h_closed_open := some o
        last_4h_high := some hi
        near_sent_for_4h := none
        break_sent_for_4h := none }
  else ss

/-- The `interval == "15m"` branch of `refresh_symbol_klines_cached`
(bot_020 lines 304–307). -/
def refresh_15m (ss : SymState) (o : Nat) (lo : ℚ) : SymState :=
  if ss.last_15m_closed_open ≠ some o then
    { ss with
        last_15m_closed_open := some o
        last_15m_low := some lo }
  else ss

/-- `last_closed` of `src/bot_020.py`: the second-to-last candle; raises
`ValueError("Not enough candles")` on fewer than two candles. -/
def last_closed (candles : List Candle) : Except String Candle :=
  if h : candles.length < 2 then Except.error "Not enough candles"
  else Except.ok (candles.get ⟨candles.length - 2, by omega⟩)

/-! ### Universe selector (`get_top_gainers`, bot_020 lines 132–152) -/

/-- Is the first list a prefix of the second (character lists)? -/
def listStartsWith : List Char → List Char → Bool
  | [], _ => true
  | _ :: _, [] => false
  | a :: as, b :: bs => a = b && listStartsWith as bs

/-- Does the second list contain the first as a contiguous sublist?
Models Python `pat in sym`. -/
def listHasSub (pat : List Char) : List Char → Bool
  | [] => listStartsWith pat []
  | b :: bs => listStartsWith pat (b :: bs) || listHasSub pat bs

/-- Python `sym.endswith(suffix)` on our character-list view of strings. -/
def strEndsWith (s suffix : String) : Bool :=
  listStartsWith suffix.data.reverse s.data.reverse

/-- Python `pat in sym`. -/
def strHasSub (s pat : String) : Bool := listHasSub pat.data s.data

/-- One entry of the `/api/v3/ticker/24hr` response, as `get_top_gainers`
reads it: the symbol and the parsed `priceChangePercent` (`none` models a
value on which `float(...)` raises, which the code skips). -/
structure Ticker24 where
  symbol : String
  priceChangePercent : Option ℚ
  deriving DecidableEq, Repr

/-- The body of the `for x in data` filter loop in `get_top_gainers`:
`none` when the row is skipped (`continue`), otherwise the `(sym, pct)`
pair appended to `usdt`. -/
def tickerKeep (x : Ticker24) : Option (String × ℚ) :=
  if ¬ strEndsWith x.symbol "USDT" then none
  else if strEndsWith x.symbol "BUSDUSDT" || strEndsWith x.symbol "USDCUSDT" then
    none
  else if strHasSub x.symbol "UPUSDT" || strHasSub x.symbol "DOWNUSDT" ||
      strHasSub x.symbol "BULLUSDT" || strHasSub x.symbol "BEARUSDT" then
    none
  else match x.priceChangePercent with
    | none => none
    | some pct => some (x.symbol, pct)

/-- The filtered `usdt` list of `get_top_gainers`. -/
def top_gainers_usdt (data : List Ticker24) : List (String × ℚ) :=
  data.filterMap tickerKeep

/-- `usdt.sort(key=lambda t: t[1], reverse=True)`: a stable descending
sort by percent change (CPython's sort is stable; `reverse=True` keeps
equal keys in original order, as a stable merge sort with `b.2 ≤ a.2`
does). -/
def top_gainers_sorted (data : List Ticker24) : List (String × ℚ) :=
  (top_gainers_usdt data).mergeSort (fun a b => decide (b.2 ≤ a.2))

/-- `get_top_gainers` of `src/bot_020.py`, as a function of the fetched
ticker list: `[s for s, _ in usdt[:top_n]]`. -/
def get_top_gainers (data : List Ticker24) (top_n : Nat) : List String :=
  ((top_gainers_sorted data).take top_n).map Prod.fst

/-! ### Crash-safe persistence (`save_state`, bot_020 lines 72–76 and
bot_3m_muboh lines 47–51; both bodies are identical) -/

/-- The two files `save_state` touches: the committed state file and the
`STATE_FILE + ".tmp"` scratch file.  Contents are byte lists; `none` is
"file does not exist". -/
structure FSState where
  stateFile : Option (List Nat)
  tmpFile : Option (List Nat)
  deriving DecidableEq, Repr

/-- The points at which a crash can interrupt `save_state`: before
anything was written, mid-way through writing the temp file (`k` bytes of
the snapshot made it to disk), after the temp write completed, and after
the atomic `os.replace`. -/
inductive SaveCrash where
  | before
  | duringWrite (k : Nat)
  | afterWrite
  | afterReplace
  deriving DecidableEq, Repr

/-- The filesystem as left behind when `save_state snapshot` is
interrupted at the given crash point.  `json.dump` writes only to the
temp file; `os.replace` atomically renames the temp file over
`STATE_FILE`. -/
def save_state_at (snapshot : List Nat) (fs : FSState) : SaveCrash → FSState
  | SaveCrash.before => fs
  | SaveCrash.duringWrite k => { fs with tmpFile := some (snapshot.take k) }
  | SaveCrash.afterWrite => { fs with tmpFile := some snapshot }
  | SaveCrash.afterReplace => { stateFile := some snapshot, tmpFile := none }

/-- `save_state` run to completion. -/
def save_state (snapshot : List Nat) (fs : FSState) : FSState :=
  save_state_at snapshot fs SaveCrash.afterReplace

/-! ### The per-symbol refresh and its catch in `loop_refresh_klines`
(bot_020 lines 272–307 and 410–422) -/

/-- The `interval == "1w"` branch of `refresh_symbol_klines_cached`
(bot_020 lines 290–293): marker update only (the Telegram text it sends
is an external side effect, not modelled). -/
def refresh_1w (ss : SymState) (o : Nat) : SymState :=
  if ss.last_1w_closed_open ≠ some o then { ss with last_1w_closed_open := some o }
  else ss

/-- The `interval == "1d"` branch of `refresh_symbol_klines_cached`
(bot_020 lines 294–297): marker update only. -/
def refresh_1d (ss : SymState) (o : Nat) : SymState :=
  if ss.last_1d_closed_open ≠ some o then { ss with last_1d_closed_open := some o }
  else ss

/-- The four reference timeframes iterated by
`refresh_symbol_klines_cached`, in source order. -/
inductive KlineInterval where
  | i1w
  | i1d
  | i4h
  | i15m
  deriving DecidableEq, Repr

/-- The fetch of one iteration of `refresh_symbol_klines_cached`:
`f iv` is the kline list this iteration works with (freshly fetched, or —
equivalently for the state updates, by the `!=` guards — the cached one),
or the exception the fetch raised; then `last_closed`, which raises on
fewer than 2 candles. -/
def fetch_closed (f : KlineInterval → Except String (List Candle)) (iv : KlineInterval) :
    Except String Candle :=
  match f iv with
  | Except.error e => Except.error e
  | Except.ok candles => last_closed candles

/-- The state write of one iteration of `refresh_symbol_klines_cached`,
by interval. -/
def apply_interval (ss : SymState) (iv : KlineInterval) (closed : Candle) : SymState :=
  match iv with
  | KlineInterval.i1w => refresh_1w ss closed.open_time
  | KlineInterval.i1d => refresh_1d ss closed.open_time
  | KlineInterval.i4h => refresh_4h ss closed.open_time closed.high
  | KlineInterval.i15m => refresh_15m ss closed.open_time closed.low

/-- One iteration of the `for interval, limit in [...]` loop of
`refresh_symbol_klines_cached`: the fetch and `last_closed` raise
*before* this iteration's state write, so an error leaves the state of
this iteration untouched. -/
def refresh_interval (f : KlineInterval → Except String (List Candle))
    (ss : SymState) (iv : KlineInterval) : Except String SymState :=
  match fetch_closed f iv with
  | Except.error e => Except.error e
  | Except.ok closed => Except.ok (apply_interval ss iv closed)

/-- The interval loop of `refresh_symbol_klines_cached`: a raise aborts
the remaining iterations, but — the Python dict being mutated in place —
the writes already made by earlier iterations persist; the raised
message is returned alongside the partially updated state. -/
def refresh_intervals (f : KlineInterval → Except String (List Candle)) :
    SymState → List KlineInterval → SymState × Option String
  | ss, [] => (ss, none)
  | ss, iv :: rest =>
    match refresh_interval f ss iv with
    | Except.ok ss1 => refresh_intervals f ss1 rest
    | Except.error msg => (ss, some msg)

/-- `refresh_symbol_klines_cached` for one symbol: the 1w, 1d, 4h, 15m
iterations in source order. -/
def refresh_symbol_klines_cached (f : KlineInterval → Except String (List Candle))
    (ss : SymState) : SymState × Option String :=
  refresh_intervals f ss [KlineInterval.i1w, KlineInterval.i1d, KlineInterval.i4h, KlineInterval.i15m]

/-- The body of the `for symbol in syms` loop of `loop_refresh_klines`
(bot_020 lines 416–420): `step` models `refresh_symbol_klines_cached` for
one symbol, returning the symbol's state as the call leaves it — on a
raise partway through, the mutations already made persist, since the
Python dict is mutated in place — together with the raised message, if
any.  The `try/except` catches per symbol and the loop always continues
with the next symbol. -/
def loop_refresh_klines_tick (step : String → SymState → SymState × Option String) :
    (String → SymState) → List String → (String → SymState)
  | st, [] => st
  | st, sym :: rest =>
    loop_refresh_klines_tick step
      (fun x => if x = sym then (step sym (st sym)).1 else st x) rest

/-! ### The 3m bot (`src/bot_3m_muboh.py`) -/

/-- The `SymbolState` dataclass of `src/bot_3m_muboh.py`. -/
structure SymbolState3m where
  symbol : String
  active : Bool
  last_muboh_ts : ℚ
  bought : Bool
  buy_level : ℚ
  trail_low : ℚ
  last_signal_ts : ℚ
  deriving DecidableEq, Repr

/-- Python `list.index` for rationals: index of the first occurrence. -/
def listIndexOfQ (a : ℚ) : List ℚ → Nat
  | [] => 0
  | b :: bs => if a = b then 0 else listIndexOfQ a bs + 1

/-- `find_setup_levels` of `src/bot_3m_muboh.py`, with the
`LOOKBACK_FOR_HIGH` and `MIN_PULLBACK_CANDLES` settings as parameters.
Python `max(0, last_closed - lookback)` coincides with saturating `Nat`
subtraction, and `idx_high >= last_closed - min_pullback` on possibly
negative ints coincides with the saturating comparison since
`idx_high ≥ 0`. -/
def find_setup_levels (lookback min_pullback : Nat) (kl : List Candle) :
    Option (ℚ × ℚ) :=
  if kl.length < lookback + 5 then none
  else
    let highs := kl.map Candle.high
    let lows := kl.map Candle.low
    let opens := kl.map Candle.opn
    let closes := kl.map Candle.close
    let lastClosed := kl.length - 2
    let start := lastClosed - lookback
    let window_highs := (highs.drop start).take (lastClosed + 1 - start)
    match window_highs with
    | [] => none
    | h :: t =>
      let max_high := t.foldl max h
      let idx_high := start + listIndexOfQ max_high (h :: t)
      if lastClosed - min_pullback ≤ idx_high then none
      else
        let pullback_count :=
          (List.range' (idx_high + 1) (lastClosed - idx_high)).countP fun i =>
            decide (closes.getD i 0 < opens.getD i 0 ∨
              closes.getD i 0 <
                (if 1 ≤ i then closes.getD (i - 1) 0 else closes.getD i 0))
        if pullback_count < min_pullback then none
        else some (highs.getD lastClosed 0, lows.getD lastClosed 0)

/-- The signal sent by the 3m bot in one scan of one symbol. -/
inductive Sig3m where
  | buy
  | sell
  deriving DecidableEq, Repr

/-- `run_analysis_and_maybe_signal` of `src/bot_3m_muboh.py` as a pure
function of the fetched klines and last price.  A fetch failure and the
`float(kl[-2][3])` IndexError (fewer than 2 candles) both `return st`
unchanged; the latter is the `kl.length < 2` guard here, under which
`kl[-2]` is `kl.getD (kl.length - 2)` (the guard makes the index valid,
so the default is never read).  Python assigns `st.trail_low` before the
sell comparison, so the comparison reads the last closed low. -/
def run_analysis_and_maybe_signal (lookback min_pullback : Nat)
    (st : SymbolState3m) (kl : List Candle) (last_price now : ℚ) :
    SymbolState3m × Option Sig3m :=
  if kl.length < 2 then (st, none)
  else if st.bought = false then
    match find_setup_levels lookback min_pullback kl with
    | some (buy_level, _) =>
      if buy_level < last_price then
        ({ st with
            buy_level := buy_level
            bought := true
            trail_low := (kl.getD (kl.length - 2) ⟨0, 0, 0, 0, 0, 0⟩).low
            last_signal_ts := now }, some Sig3m.buy)
      else ({ st with buy_level := buy_level }, none)
    | none => (st, none)
  else
    if last_price < (kl.getD (kl.length - 2) ⟨0, 0, 0, 0, 0, 0⟩).low then
      ({ st with
          trail_low := (kl.getD (kl.length - 2) ⟨0, 0, 0, 0, 0, 0⟩).low
          bought := false
          buy_level := 0
          last_signal_ts := now }, some Sig3m.sell)
    else ({ st with trail_low := (kl.getD (kl.length - 2) ⟨0, 0, 0, 0, 0, 0⟩).low }, none)

example :
    runPrices (2/100)
      { initSymState with
          last_4h_high := some 100
          last_4h_closed_open := some 1
          last_1d_closed_open := some 1 }
      [95, 197/2, 99, 199/2, 201/2]
      |>.2.map Fired.near = [false, true, false, false, false] := by decide

example :
    runPrices (2/100)
      { initSymState with
          last_4h_high := some 100
          last_4h_closed_open := some 1
          last_1d_closed_open := some 1 }
      [100, 99] |>.2.map Fired.near = [false, true] := by decide

/-- A freshly armed per-symbol state: a 4h level `L` armed for 4h epoch
`e`, with the daily marker at `d`, all sent flags fresh (as after
`refresh_symbol_klines_cached` populated a new symbol). -/
def armedState (L : ℚ) (e d : Nat) : SymState :=
  { initSymState with
      last_4h_high := some L
      last_4h_closed_open := some e
      last_1d_closed_open := some d }

/-- An armed state whose 4h break has already been recorded this epoch. -/
def postBreakState : SymState :=
  { armedState 100 1 1 with
      break_sent_for_4h := some 1
      upmove_active := true
      upmove_started_4h := some 1 }

/-- The BREAK-THEN-REVERSAL scenario state: 4h level 50 armed, secondary
15m low 48 loaded. -/
def brkRevState : SymState :=
  { armedState 50 1 1 with
      last_15m_low := some 48
      last_15m_closed_open := some 1 }

/-- A one-row 24h-ticker response used to evaluate the selector. -/
def tickersEx1 : List Ticker24 := [⟨"AAAUSDT", some 5⟩]

/-- A per-symbol fetch for the witness: the 4h fetch of `AAAUSDT` raises
an HTTP error; every other fetch returns two candles whose last closed
one has open-time 7, high 10 and low 5. -/
def fetchFails : String → KlineInterval → Except String (List Candle) :=
  fun sym iv =>
    if sym = "AAAUSDT" ∧ iv = KlineInterval.i4h then Except.error "HTTPError"
    else Except.ok [⟨7, 1, 10, 5, 8, 8⟩, ⟨8, 1, 9, 6, 7, 9⟩]

/-- An 8-candle 3m kline list with a make-a-high at index 3 and bearish
pullback candles after it, so `find_setup_levels 3 1` finds a setup. -/
def kl3m : List Candle :=
  [⟨0, 50, 50, 40, 40, 1⟩, ⟨1, 50, 50, 40, 40, 2⟩, ⟨2, 50, 50, 40, 40, 3⟩,
    ⟨3, 50, 100, 40, 40, 4⟩, ⟨4, 50, 50, 40, 40, 5⟩, ⟨5, 50, 50, 40, 40, 6⟩,
    ⟨6, 50, 50, 40, 40, 7⟩, ⟨7, 50, 50, 40, 40, 8⟩]

/-- A 3m symbol state as created on a fresh MUBOH trigger. -/
def st3m : SymbolState3m :=
  { symbol := "LTCUSDT", active := true, last_muboh_ts := 0, bought := false,
    buy_level := 0, trail_low := 0, last_signal_ts := 0 }

/-- Over a trace of observations: no sell message before the next break
message (a brk in the same observation counts as before its sell, since
the break section runs first). -/
def noSellUntilBrk : List Fired → Bool
  | [] => true
  | f :: rest => if f.brk then true else if f.sell then false else noSellUntilBrk rest

/-- Over a trace of observations: after every sell message, no further
sell before the next break message — "at most one sell per break
epoch". -/
def goodSells : List Fired → Bool
  | [] => true
  | f :: rest => (if f.sell then noSellUntilBrk rest else true) && goodSells rest

/-! ## Helper lemmas: the shapes of the three `handle_signals` sections -/

theorem nearStep_cases (pct L : ℚ) (e : Nat) (ss : SymState) (p : ℚ) :
    ((nearStep pct L e ss p).2 = false ∧ (nearStep pct L e ss p).1 = ss) ∨
    ((nearStep pct L e ss p).2 = true ∧
      (nearStep pct L e ss p).1 = { ss with near_sent_for_4h := some e } ∧
      L * (1 - pct) ≤ p ∧ p < L ∧ ss.near_sent_for_4h ≠ some e) := by
  unfold nearStep
  split
  case isTrue hband =>
    split
    case isTrue hsent => exact Or.inr ⟨rfl, rfl, hband.1, hband.2, hsent⟩
    case isFalse hsent => exact Or.inl ⟨rfl, rfl⟩
  case isFalse hband => exact Or.inl ⟨rfl, rfl⟩

theorem nearStep_fires_iff (pct L : ℚ) (e : Nat) (ss : SymState) (p : ℚ) :
    (nearStep pct L e ss p).2 = true ↔
      (L * (1 - pct) ≤ p ∧ p < L ∧ ss.near_sent_for_4h ≠ some e) := by
  unfold nearStep
  split
  case isTrue hband =>
    split
    case isTrue hsent => simp [hband.1, hband.2, hsent]
    case isFalse hsent => simp_all
  case isFalse hband =>
    simp only [not_and_or] at hband
    constructor
    · intro h; cases h
    · rintro ⟨h1, h2, -⟩
      rcases hband with h | h <;> exact absurd (by assumption) h

theorem breakStep_cases (L : ℚ) (e : Nat) (ss : SymState) (p : ℚ) :
    ((breakStep L e ss p).2 = false ∧ (breakStep L e ss p).1 = ss) ∨
    ((breakStep L e ss p).2 = true ∧
      (breakStep L e ss p).1 =
        { ss with
            break_sent_for_4h := some e
            upmove_active := true
            upmove_started_4h := some e
            sell_once_done_for_break := none } ∧
      L ≤ p ∧ ss.break_sent_for_4h ≠ some e) := by
  unfold breakStep
  split
  case isTrue hbrk =>
    split
    case isTrue hsent => exact Or.inr ⟨rfl, rfl, hbrk, hsent⟩
    case isFalse hsent => exact Or.inl ⟨rfl, rfl⟩
  case isFalse hbrk => exact Or.inl ⟨rfl, rfl⟩

theorem breakStep_fires_iff (L : ℚ) (e : Nat) (ss : SymState) (p : ℚ) :
    (breakStep L e ss p).2 = true ↔ (L ≤ p ∧ ss.break_sent_for_4h ≠ some e) := by
  unfold breakStep
  split
  case isTrue hbrk =>
    split
    case isTrue hsent => simp [hbrk, hsent]
    case isFalse hsent => simp_all
  case isFalse hbrk => simp_all

theorem sellStep_cases (ss : SymState) (p : ℚ) :
    ((sellStep ss p).2 = false ∧ (sellStep ss p).1 = ss) ∨
    ((sellStep ss p).2 = true ∧
      (sellStep ss p).1 =
        { ss with sell_once_done_for_break := ss.upmove_started_4h } ∧
      ss.upmove_active = true ∧
      ss.sell_once_done_for_break ≠ ss.upmove_started_4h ∧
      truthyQ ss.last_15m_low = true ∧
      truthyNat ss.last_15m_closed_open = true ∧
      p < ss.last_15m_low.getD 0) := by
  unfold sellStep
  split
  case isTrue hact =>
    split
    case isTrue hdone => exact Or.inl ⟨rfl, rfl⟩
    case isFalse hdone =>
      split
      case isTrue h15 =>
        split
        case isTrue hlt => exact Or.inr ⟨rfl, rfl, hact, hdone, h15.1, h15.2, hlt⟩
        case isFalse hlt => exact Or.inl ⟨rfl, rfl⟩
      case isFalse h15 => exact Or.inl ⟨rfl, rfl⟩
  case isFalse hact => exact Or.inl ⟨rfl, by simp_all⟩

theorem sellStep_fires_iff (ss : SymState) (p : ℚ) :
    (sellStep ss p).2 = true ↔
      (ss.upmove_active = true ∧
        ss.sell_once_done_for_break ≠ ss.upmove_started_4h ∧
        truthyQ ss.last_15m_low = true ∧
        truthyNat ss.last_15m_closed_open = true ∧
        p < ss.last_15m_low.getD 0) := by
  unfold sellStep
  split
  case isTrue hact =>
    split
    case isTrue hdone => simp_all
    case isFalse hdone =>
      split
      case isTrue h15 =>
        split
        case isTrue hlt => simp_all
        case isFalse hlt => simp_all
      case isFalse h15 => simp_all [not_and_or]
  case isFalse hact => simp_all

/-! ## Helper lemmas: `handle_signals` as one observation step -/

theorem handle_signals_eq (pct : ℚ) (ss : SymState) (p : ℚ)
    (hg : truthyQ ss.last_4h_high = true ∧ truthyNat ss.last_4h_closed_open = true ∧
      truthyNat ss.last_1d_closed_open = true) :
    handle_signals pct ss p =
      ((sellStep (breakStep (ss.last_4h_high.getD 0) (ss.last_4h_closed_open.getD 0)
          (nearStep pct (ss.last_4h_high.getD 0) (ss.last_4h_closed_open.getD 0) ss p).1 p).1 p).1,
        ⟨(nearStep pct (ss.last_4h_high.getD 0) (ss.last_4h_closed_open.getD 0) ss p).2,
          (breakStep (ss.last_4h_high.getD 0) (ss.last_4h_closed_open.getD 0)
            (nearStep pct (ss.last_4h_high.getD 0) (ss.last_4h_closed_open.getD 0) ss p).1 p).2,
          (sellStep (breakStep (ss.last_4h_high.getD 0) (ss.last_4h_closed_open.getD 0)
            (nearStep pct (ss.last_4h_high.getD 0) (ss.last_4h_closed_open.getD 0) ss p).1 p).1 p).2⟩) := by
  unfold handle_signals
  rw [if_pos hg]

theorem handle_signals_eq_not (pct : ℚ) (ss : SymState) (p : ℚ)
    (hg : ¬(truthyQ ss.last_4h_high = true ∧ truthyNat ss.last_4h_closed_open = true ∧
      truthyNat ss.last_1d_closed_open = true)) :
    handle_signals pct ss p = (ss, ⟨false, false, false⟩) := by
  unfold handle_signals
  rw [if_neg hg]

/-- The final state of one `handle_signals` observation is the input state
with only the signal bookkeeping fields possibly changed. -/
theorem handle_signals_shape (pct : ℚ) (ss : SymState) (p : ℚ) :
    ∃ ns bs ua us mk,
      (handle_signals pct ss p).1 =
        { ss with
            near_sent_for_4h := ns
            break_sent_for_4h := bs
            upmove_active := ua
            upmove_started_4h := us
            sell_once_done_for_break := mk } := by
  by_cases hg : truthyQ ss.last_4h_high = true ∧ truthyNat ss.last_4h_closed_open = true ∧
      truthyNat ss.last_1d_closed_open = true
  · rw [handle_signals_eq pct ss p hg]
    rcases nearStep_cases pct (ss.last_4h_high.getD 0) (ss.last_4h_closed_open.getD 0) ss p with
      ⟨-, hn1⟩ | ⟨-, hn1, -, -, -⟩ <;> rw [hn1] <;>
    · rcases breakStep_cases (ss.last_4h_high.getD 0) (ss.last_4h_closed_open.getD 0) _ p with
        ⟨-, hb1⟩ | ⟨-, hb1, -, -⟩ <;> rw [hb1] <;>
      · rcases sellStep_cases _ p with ⟨-, hs1⟩ | ⟨-, hs1, -, -, -, -, -⟩ <;> rw [hs1] <;>
          exact ⟨_, _, _, _, _, rfl⟩
  · rw [handle_signals_eq_not pct ss p hg]
    exact ⟨ss.near_sent_for_4h, ss.break_sent_for_4h, ss.upmove_active,
      ss.upmove_started_4h, ss.sell_once_done_for_break, rfl⟩

/-- `handle_signals` never writes the reference-level or close-marker
fields: price observations leave them untouched. -/
theorem handle_signals_frame (pct : ℚ) (ss : SymState) (p : ℚ) :
    (handle_signals pct ss p).1.last_4h_high = ss.last_4h_high ∧
    (handle_signals pct ss p).1.last_4h_closed_open = ss.last_4h_closed_open ∧
    (handle_signals pct ss p).1.last_1d_closed_open = ss.last_1d_closed_open ∧
    (handle_signals pct ss p).1.last_1w_closed_open = ss.last_1w_closed_open ∧
    (handle_signals pct ss p).1.last_15m_low = ss.last_15m_low ∧
    (handle_signals pct ss p).1.last_15m_closed_open = ss.last_15m_closed_open := by
  obtain ⟨ns, bs, ua, us, mk, h⟩ := handle_signals_shape pct ss p
  rw [h]
  exact ⟨rfl, rfl, rfl, rfl, rfl, rfl⟩

/-- When the near message fires and when it does not, what
`near_sent_for_4h` becomes. -/
theorem handle_signals_near_sent (pct : ℚ) (ss : SymState) (p : ℚ) :
    ((handle_signals pct ss p).2.near = true →
      (handle_signals pct ss p).1.near_sent_for_4h =
        some (ss.last_4h_closed_open.getD 0)) ∧
    ((handle_signals pct ss p).2.near = false →
      (handle_signals pct ss p).1.near_sent_for_4h = ss.near_sent_for_4h) := by
  by_cases hg : truthyQ ss.last_4h_high = true ∧ truthyNat ss.last_4h_closed_open = true ∧
      truthyNat ss.last_1d_closed_open = true
  · rw [handle_signals_eq pct ss p hg]
    rcases nearStep_cases pct (ss.last_4h_high.getD 0) (ss.last_4h_closed_open.getD 0) ss p with
      ⟨hn2, hn1⟩ | ⟨hn2, hn1, -, -, -⟩ <;> rw [hn1, hn2] <;>
    · rcases breakStep_cases (ss.last_4h_high.getD 0) (ss.last_4h_closed_open.getD 0) _ p with
        ⟨-, hb1⟩ | ⟨-, hb1, -, -⟩ <;> rw [hb1] <;>
      · rcases sellStep_cases _ p with ⟨-, hs1⟩ | ⟨-, hs1, -, -, -, -, -⟩ <;> rw [hs1] <;>
          simp
  · rw [handle_signals_eq_not pct ss p hg]
    simp

/-- The near message fires exactly when the armed guard holds, the price
is in the band, and the near signal was not already sent for this epoch. -/
theorem handle_signals_near_iff (pct : ℚ) (ss : SymState) (p : ℚ) :
    (handle_signals pct ss p).2.near = true ↔
      (truthyQ ss.last_4h_high = true ∧ truthyNat ss.last_4h_closed_open = true ∧
        truthyNat ss.last_1d_closed_open = true ∧
        ss.last_4h_high.getD 0 * (1 - pct) ≤ p ∧ p < ss.last_4h_high.getD 0 ∧
        ss.near_sent_for_4h ≠ some (ss.last_4h_closed_open.getD 0)) := by
  by_cases hg : truthyQ ss.last_4h_high = true ∧ truthyNat ss.last_4h_closed_open = true ∧
      truthyNat ss.last_1d_closed_open = true
  · rw [handle_signals_eq pct ss p hg]
    have := nearStep_fires_iff pct (ss.last_4h_high.getD 0) (ss.last_4h_closed_open.getD 0) ss p
    simp only [hg.1, hg.2.1, hg.2.2, true_and]
    exact this
  · rw [handle_signals_eq_not pct ss p hg]
    simp only [not_and_or] at hg
    constructor
    · intro h; cases h
    · rintro ⟨h1, h2, h3, -⟩
      rcases hg with h | h | h <;> exact absurd (by assumption) h

/-- The break message fires exactly when the armed guard holds, the price
reached the level, and the break was not already sent for this epoch. -/
theorem handle_signals_brk_iff (pct : ℚ) (ss : SymState) (p : ℚ) :
    (handle_signals pct ss p).2.brk = true ↔
      (truthyQ ss.last_4h_high = true ∧ truthyNat ss.last_4h_closed_open = true ∧
        truthyNat ss.last_1d_closed_open = true ∧
        ss.last_4h_high.getD 0 ≤ p ∧
        ss.break_sent_for_4h ≠ some (ss.last_4h_closed_open.getD 0)) := by
  by_cases hg : truthyQ ss.last_4h_high = true ∧ truthyNat ss.last_4h_closed_open = true ∧
      truthyNat ss.last_1d_closed_open = true
  · rw [handle_signals_eq pct ss p hg]
    simp only [hg.1, hg.2.1, hg.2.2, true_and]
    rcases nearStep_cases pct (ss.last_4h_high.getD 0) (ss.last_4h_closed_open.getD 0) ss p with
      ⟨-, hn1⟩ | ⟨-, hn1, -, -, -⟩ <;> rw [hn1] <;>
      · rw [breakStep_fires_iff]
  · rw [handle_signals_eq_not pct ss p hg]
    simp only [not_and_or] at hg
    constructor
    · intro h; cases h
    · rintro ⟨h1, h2, h3, -⟩
      rcases hg with h | h | h <;> exact absurd (by assumption) h

/-- What `break_sent_for_4h` becomes after one observation. -/
theorem handle_signals_break_sent (pct : ℚ) (ss : SymState) (p : ℚ) :
    ((handle_signals pct ss p).2.brk = true →
      (handle_signals pct ss p).1.break_sent_for_4h =
        some (ss.last_4h_closed_open.getD 0)) ∧
    ((handle_signals pct ss p).2.brk = false →
      (handle_signals pct ss p).1.break_sent_for_4h = ss.break_sent_for_4h) := by
  by_cases hg : truthyQ ss.last_4h_high = true ∧ truthyNat ss.last_4h_closed_open = true ∧
      truthyNat ss.last_1d_closed_open = true
  · rw [handle_signals_eq pct ss p hg]
    rcases nearStep_cases pct (ss.last_4h_high.getD 0) (ss.last_4h_closed_open.getD 0) ss p with
      ⟨-, hn1⟩ | ⟨-, hn1, -, -, -⟩ <;> rw [hn1] <;>
    · rcases breakStep_cases (ss.last_4h_high.getD 0) (ss.last_4h_closed_open.getD 0) _ p with
        ⟨hb2, hb1⟩ | ⟨hb2, hb1, -, -⟩ <;> rw [hb1, hb2] <;>
      · rcases sellStep_cases _ p with ⟨-, hs1⟩ | ⟨-, hs1, -, -, -, -, -⟩ <;> rw [hs1] <;>
          simp
  · rw [handle_signals_eq_not pct ss p hg]
    simp

/-- After an observation that fired the break message: the upmove latch is
active, the break epoch is recorded, and the sell-once marker is cleared
(unless the same observation's sell stage immediately fired, which
re-records it). -/
theorem handle_signals_post_break (pct : ℚ) (ss : SymState) (p : ℚ)
    (h : (handle_signals pct ss p).2.brk = true) :
    (handle_signals pct ss p).1.upmove_active = true ∧
    (handle_signals pct ss p).1.upmove_started_4h =
      some (ss.last_4h_closed_open.getD 0) ∧
    ((handle_signals pct ss p).2.sell = false →
      (handle_signals pct ss p).1.sell_once_done_for_break = none) ∧
    ((handle_signals pct ss p).2.sell = true →
      (handle_signals pct ss p).1.sell_once_done_for_break =
        some (ss.last_4h_closed_open.getD 0)) := by
  by_cases hg : truthyQ ss.last_4h_high = true ∧ truthyNat ss.last_4h_closed_open = true ∧
      truthyNat ss.last_1d_closed_open = true
  · rw [handle_signals_eq pct ss p hg] at h ⊢
    rcases nearStep_cases pct (ss.last_4h_high.getD 0) (ss.last_4h_closed_open.getD 0) ss p with
      ⟨-, hn1⟩ | ⟨-, hn1, -, -, -⟩ <;> rw [hn1] at h ⊢ <;>
    · rcases breakStep_cases (ss.last_4h_high.getD 0) (ss.last_4h_closed_open.getD 0) _ p with
        ⟨hb2, hb1⟩ | ⟨hb2, hb1, -, -⟩ <;> rw [hb1] at h ⊢ <;>
      · rcases sellStep_cases _ p with ⟨hs2, hs1⟩ | ⟨hs2, hs1, -, -, -, -, -⟩ <;>
          rw [hs1] at h ⊢ <;> simp_all
  · rw [handle_signals_eq_not pct ss p hg] at h
    cases h

/-- Whenever the sell message fires, the sell-once marker afterwards
equals the recorded break epoch. -/
theorem handle_signals_post_sell (pct : ℚ) (ss : SymState) (p : ℚ)
    (h : (handle_signals pct ss p).2.sell = true) :
    (handle_signals pct ss p).1.sell_once_done_for_break =
      (handle_signals pct ss p).1.upmove_started_4h := by
  by_cases hg : truthyQ ss.last_4h_high = true ∧ truthyNat ss.last_4h_closed_open = true ∧
      truthyNat ss.last_1d_closed_open = true
  · rw [handle_signals_eq pct ss p hg] at h ⊢
    rcases sellStep_cases (breakStep (ss.last_4h_high.getD 0) (ss.last_4h_closed_open.getD 0)
        (nearStep pct (ss.last_4h_high.getD 0) (ss.last_4h_closed_open.getD 0) ss p).1 p).1 p with
      ⟨hs2, -⟩ | ⟨-, hs1, -, -, -, -, -⟩
    · rw [hs2] at h; cases h
    · rw [hs1]
  · rw [handle_signals_eq_not pct ss p hg] at h
    cases h

/-- If no break fires at an observation, the upmove latch, the break
epoch, and (if no sell fires either) the sell-once marker are unchanged. -/
theorem handle_signals_no_break (pct : ℚ) (ss : SymState) (p : ℚ)
    (hb : (handle_signals pct ss p).2.brk = false) :
    (handle_signals pct ss p).1.upmove_active = ss.upmove_active ∧
    (handle_signals pct ss p).1.upmove_started_4h = ss.upmove_started_4h ∧
    ((handle_signals pct ss p).2.sell = false →
      (handle_signals pct ss p).1.sell_once_done_for_break =
        ss.sell_once_done_for_break) := by
  by_cases hg : truthyQ ss.last_4h_high = true ∧ truthyNat ss.last_4h_closed_open = true ∧
      truthyNat ss.last_1d_closed_open = true
  · rw [handle_signals_eq pct ss p hg] at hb ⊢
    rcases nearStep_cases pct (ss.last_4h_high.getD 0) (ss.last_4h_closed_open.getD 0) ss p with
      ⟨-, hn1⟩ | ⟨-, hn1, -, -, -⟩ <;> rw [hn1] at hb ⊢ <;>
    · rcases breakStep_cases (ss.last_4h_high.getD 0) (ss.last_4h_closed_open.getD 0) _ p with
        ⟨hb2, hb1⟩ | ⟨hb2, hb1, -, -⟩ <;> rw [hb1] at hb ⊢ <;>
      · rcases sellStep_cases _ p with ⟨hs2, hs1⟩ | ⟨hs2, hs1, -, -, -, -, -⟩ <;>
          rw [hs1] at hb ⊢ <;> simp_all
  · rw [handle_signals_eq_not pct ss p hg]
    simp

/-- If the sell-once marker already equals the recorded break epoch and no
new break fires, no sell fires and the marker still equals the epoch. -/
theorem handle_signals_sell_blocked (pct : ℚ) (ss : SymState) (p : ℚ)
    (h : ss.sell_once_done_for_break = ss.upmove_started_4h)
    (hb : (handle_signals pct ss p).2.brk = false) :
    (handle_signals pct ss p).2.sell = false ∧
    (handle_signals pct ss p).1.sell_once_done_for_break =
      (handle_signals pct ss p).1.upmove_started_4h := by
  by_cases hg : truthyQ ss.last_4h_high = true ∧ truthyNat ss.last_4h_closed_open = true ∧
      truthyNat ss.last_1d_closed_open = true
  · rw [handle_signals_eq pct ss p hg] at hb ⊢
    rcases nearStep_cases pct (ss.last_4h_high.getD 0) (ss.last_4h_closed_open.getD 0) ss p with
      ⟨-, hn1⟩ | ⟨-, hn1, -, -, -⟩ <;> rw [hn1] at hb ⊢ <;>
    · rcases breakStep_cases (ss.last_4h_high.getD 0) (ss.last_4h_closed_open.getD 0) _ p with
        ⟨hb2, hb1⟩ | ⟨hb2, hb1, -, -⟩ <;> rw [hb1] at hb ⊢ <;>
      · rcases sellStep_cases _ p with ⟨hs2, hs1⟩ | ⟨hs2, hs1, -, hdone, -, -, -⟩ <;>
          rw [hs1] at hb ⊢ <;> simp_all
  · rw [handle_signals_eq_not pct ss p hg]
    simp [h]

/-- With the latch active and no break firing this observation, the sell
message fires exactly when the guard holds, the marker differs from the
break epoch, the 15m fields are truthy, and the price is below the low. -/
theorem handle_signals_sell_iff (pct : ℚ) (ss : SymState) (p : ℚ)
    (hb : (handle_signals pct ss p).2.brk = false) :
    (handle_signals pct ss p).2.sell = true ↔
      (truthyQ ss.last_4h_high = true ∧ truthyNat ss.last_4h_closed_open = true ∧
        truthyNat ss.last_1d_closed_open = true ∧
        ss.upmove_active = true ∧
        ss.sell_once_done_for_break ≠ ss.upmove_started_4h ∧
        truthyQ ss.last_15m_low = true ∧ truthyNat ss.last_15m_closed_open = true ∧
        p < ss.last_15m_low.getD 0) := by
  by_cases hg : truthyQ ss.last_4h_high = true ∧ truthyNat ss.last_4h_closed_open = true ∧
      truthyNat ss.last_1d_closed_open = true
  · rw [handle_signals_eq pct ss p hg] at hb ⊢
    simp only [hg.1, hg.2.1, hg.2.2, true_and]
    rcases nearStep_cases pct (ss.last_4h_high.getD 0) (ss.last_4h_closed_open.getD 0) ss p with
      ⟨-, hn1⟩ | ⟨-, hn1, -, -, -⟩ <;> rw [hn1] at hb ⊢ <;>
    · rcases breakStep_cases (ss.last_4h_high.getD 0) (ss.last_4h_closed_open.getD 0) _ p with
        ⟨hb2, hb1⟩ | ⟨hb2, hb1, -, -⟩ <;> rw [hb1] at hb ⊢ <;>
      · rw [sellStep_fires_iff] <;> simp_all
  · rw [handle_signals_eq_not pct ss p hg]
    simp only [not_and_or] at hg
    constructor
    · intro h; cases h
    · rintro ⟨h1, h2, h3, -⟩
      rcases hg with h | h | h <;> exact absurd (by assumption) h

/-- A falsy stored 15m low (missing or exactly `0.0`) disables the sell
stage. -/
theorem handle_signals_sell_needs_low (pct : ℚ) (ss : SymState) (p : ℚ)
    (h : truthyQ ss.last_15m_low = false) :
    (handle_signals pct ss p).2.sell = false := by
  by_cases hg : truthyQ ss.last_4h_high = true ∧ truthyNat ss.last_4h_closed_open = true ∧
      truthyNat ss.last_1d_closed_open = true
  · have hmid : ((breakStep (ss.last_4h_high.getD 0) (ss.last_4h_closed_open.getD 0)
        (nearStep pct (ss.last_4h_high.getD 0) (ss.last_4h_closed_open.getD 0) ss p).1 p).1).last_15m_low
        = ss.last_15m_low := by
      rcases nearStep_cases pct (ss.last_4h_high.getD 0) (ss.last_4h_closed_open.getD 0) ss p with
        ⟨-, hn1⟩ | ⟨-, hn1, -, -, -⟩ <;> rw [hn1] <;>
      · rcases breakStep_cases (ss.last_4h_high.getD 0) (ss.last_4h_closed_open.getD 0) _ p with
          ⟨-, hb1⟩ | ⟨-, hb1, -, -⟩ <;> rw [hb1]
    rw [handle_signals_eq pct ss p hg]
    show (sellStep (breakStep (ss.last_4h_high.getD 0) (ss.last_4h_closed_open.getD 0)
      (nearStep pct (ss.last_4h_high.getD 0) (ss.last_4h_closed_open.getD 0) ss p).1 p).1 p).2 = false
    cases hx : (sellStep (breakStep (ss.last_4h_high.getD 0) (ss.last_4h_closed_open.getD 0)
        (nearStep pct (ss.last_4h_high.getD 0) (ss.last_4h_closed_open.getD 0) ss p).1 p).1 p).2
    · rfl
    · obtain ⟨-, -, hlow, -, -⟩ := (sellStep_fires_iff _ p).mp hx
      rw [hmid] at hlow
      rw [hlow] at h
      cases h
  · rw [handle_signals_eq_not pct ss p hg]

/-! ## Trace lemmas over `runPrices` -/

theorem runPrices_cons (pct : ℚ) (ss : SymState) (p : ℚ) (ps : List ℚ) :
    runPrices pct ss (p :: ps) =
      ((runPrices pct (handle_signals pct ss p).1 ps).1,
        (handle_signals pct ss p).2 :: (runPrices pct (handle_signals pct ss p).1 ps).2) := rfl

/-- Once the near signal is recorded for the current epoch, no later
observation (without a rearm) fires it again. -/
theorem runPrices_no_near (pct : ℚ) (ss : SymState) (ps : List ℚ)
    (h : ss.near_sent_for_4h = some (ss.last_4h_closed_open.getD 0)) :
    ∀ f ∈ (runPrices pct ss ps).2, f.near = false := by
  induction ps generalizing ss with
  | nil => intro f hf; cases hf
  | cons p ps ih =>
    intro f hf
    rw [runPrices_cons] at hf
    have hnb : (handle_signals pct ss p).2.near = false := by
      cases hx : (handle_signals pct ss p).2.near
      · rfl
      · obtain ⟨-, -, -, -, -, hne⟩ := (handle_signals_near_iff pct ss p).mp hx
        exact absurd h hne
    rcases List.mem_cons.mp hf with rfl | hf'
    · exact hnb
    · refine ih (handle_signals pct ss p).1 ?_ f hf'
      have h2 := (handle_signals_near_sent pct ss p).2 hnb
      have hfr := handle_signals_frame pct ss p
      rw [h2, hfr.2.1, h]

/-- At most one near message over any rearm-free run of observations. -/
theorem runPrices_near_once (pct : ℚ) (ss : SymState) (ps : List ℚ) :
    (runPrices pct ss ps).2.countP (fun f => f.near) ≤ 1 := by
  induction ps generalizing ss with
  | nil => simp [runPrices]
  | cons p ps ih =>
    rw [runPrices_cons]
    rw [List.countP_cons]
    cases hx : (handle_signals pct ss p).2.near
    · simpa [hx] using ih (handle_signals pct ss p).1
    · have h1 := (handle_signals_near_sent pct ss p).1 hx
      have hfr := handle_signals_frame pct ss p
      have hall : ∀ f ∈ (runPrices pct (handle_signals pct ss p).1 ps).2, f.near = false :=
        runPrices_no_near pct _ ps (by rw [h1, hfr.2.1])
      have hz : (runPrices pct (handle_signals pct ss p).1 ps).2.countP (fun f => f.near) = 0 :=
        List.countP_eq_zero.mpr (by intro f hf; simpa using hall f hf)
      simp [hx, hz]

/-- Once the break signal is recorded for the current epoch, no later
observation (without a rearm) fires it again. -/
theorem runPrices_no_brk (pct : ℚ) (ss : SymState) (ps : List ℚ)
    (h : ss.break_sent_for_4h = some (ss.last_4h_closed_open.getD 0)) :
    ∀ f ∈ (runPrices pct ss ps).2, f.brk = false := by
  induction ps generalizing ss with
  | nil => intro f hf; cases hf
  | cons p ps ih =>
    intro f hf
    rw [runPrices_cons] at hf
    have hnb : (handle_signals pct ss p).2.brk = false := by
      cases hx : (handle_signals pct ss p).2.brk
      · rfl
      · obtain ⟨-, -, -, -, hne⟩ := (handle_signals_brk_iff pct ss p).mp hx
        exact absurd h hne
    rcases List.mem_cons.mp hf with rfl | hf'
    · exact hnb
    · refine ih (handle_signals pct ss p).1 ?_ f hf'
      have h2 := (handle_signals_break_sent pct ss p).2 hnb
      have hfr := handle_signals_frame pct ss p
      rw [h2, hfr.2.1, h]

/-- At most one break message over any rearm-free run of observations. -/
theorem runPrices_brk_once (pct : ℚ) (ss : SymState) (ps : List ℚ) :
    (runPrices pct ss ps).2.countP (fun f => f.brk) ≤ 1 := by
  induction ps generalizing ss with
  | nil => simp [runPrices]
  | cons p ps ih =>
    rw [runPrices_cons]
    rw [List.countP_cons]
    cases hx : (handle_signals pct ss p).2.brk
    · simpa [hx] using ih (handle_signals pct ss p).1
    · have h1 := (handle_signals_break_sent pct ss p).1 hx
      have hfr := handle_signals_frame pct ss p
      have hall : ∀ f ∈ (runPrices pct (handle_signals pct ss p).1 ps).2, f.brk = false :=
        runPrices_no_brk pct _ ps (by rw [h1, hfr.2.1])
      have hz : (runPrices pct (handle_signals pct ss p).1 ps).2.countP (fun f => f.brk) = 0 :=
        List.countP_eq_zero.mpr (by intro f hf; simpa using hall f hf)
      simp [hx, hz]

/-- While the sell-once marker matches the recorded break epoch, no sell
fires until a new break message. -/
theorem runPrices_sell_blocked (pct : ℚ) (ss : SymState) (ps : List ℚ)
    (h : ss.sell_once_done_for_break = ss.upmove_started_4h) :
    noSellUntilBrk (runPrices pct ss ps).2 = true := by
  induction ps generalizing ss with
  | nil => rfl
  | cons p ps ih =>
    rw [runPrices_cons]
    unfold noSellUntilBrk
    cases hb : (handle_signals pct ss p).2.brk
    · have hs := handle_signals_sell_blocked pct ss p h hb
      simp only [hb, Bool.false_eq_true, if_false, hs.1]
      exact ih (handle_signals pct ss p).1 hs.2
    · simp [hb]

/-- Every sell message is the last one until the next break message. -/
theorem runPrices_goodSells (pct : ℚ) (ss : SymState) (ps : List ℚ) :
    goodSells (runPrices pct ss ps).2 = true := by
  induction ps generalizing ss with
  | nil => rfl
  | cons p ps ih =>
    rw [runPrices_cons]
    unfold goodSells
    rw [Bool.and_eq_true]
    refine ⟨?_, ih (handle_signals pct ss p).1⟩
    cases hs : (handle_signals pct ss p).2.sell
    · simp [hs]
    · simp only [hs, if_true]
      exact runPrices_sell_blocked pct _ ps (handle_signals_post_sell pct ss p hs)

/-- `getD` of a trace whose members all have `near = false`. -/
theorem getD_near_false (l : List Fired) (h : ∀ f ∈ l, f.near = false) (n : Nat) :
    (l.getD n ⟨false, false, false⟩).near = false := by
  induction l generalizing n with
  | nil => cases n <;> rfl
  | cons f l ih =>
    cases n with
    | zero => exact h f (List.mem_cons_self f l)
    | succ n => exact ih (fun g hg => h g (List.mem_cons_of_mem f hg)) n

/-- From a freshly armed state, the near signal fires at exactly the first
observation whose price is in the band `[L·(1 − pct), L)`, and at no
other observation. -/
theorem runPrices_near_first_fire (pct L : ℚ) (e : Nat) (ss : SymState) (ps : List ℚ)
    (hH : ss.last_4h_high = some L) (hL : L ≠ 0)
    (hE : ss.last_4h_closed_open = some e) (he : e ≠ 0)
    (hD : truthyNat ss.last_1d_closed_open = true)
    (hN : ss.near_sent_for_4h = none) :
    ∀ i : Nat,
      ((runPrices pct ss ps).2.getD i ⟨false, false, false⟩).near = true ↔
        (i < ps.length ∧
          (L * (1 - pct) ≤ ps.getD i 0 ∧ ps.getD i 0 < L) ∧
          ∀ j < i, ¬(L * (1 - pct) ≤ ps.getD j 0 ∧ ps.getD j 0 < L)) := by
  induction ps generalizing ss with
  | nil =>
    intro i
    constructor
    · intro h
      cases i <;> cases h
    · rintro ⟨hi, -, -⟩
      exact absurd hi (Nat.not_lt_zero i)
  | cons p ps ih =>
    intro i
    have hfire : (handle_signals pct ss p).2.near = true ↔
        (L * (1 - pct) ≤ p ∧ p < L) := by
      rw [handle_signals_near_iff, hH, hE, hN]
      simp only [hD]
      simp [truthyQ, truthyNat, hL, he]
    rw [runPrices_cons]
    cases i with
    | zero =>
      simp only [List.getD_cons_zero, List.length_cons]
      constructor
      · intro h
        exact ⟨Nat.succ_pos ps.length, by simpa using hfire.mp h, fun j hj => absurd hj (Nat.not_lt_zero j)⟩
      · rintro ⟨-, hband, -⟩
        exact hfire.mpr (by simpa using hband)
    | succ n =>
      simp only [List.getD_cons_succ, List.length_cons]
      by_cases hband : L * (1 - pct) ≤ p ∧ p < L
      · have hfired := hfire.mpr hband
        have h1 := (handle_signals_near_sent pct ss p).1 hfired
        have hfr := handle_signals_frame pct ss p
        have hall : ∀ f ∈ (runPrices pct (handle_signals pct ss p).1 ps).2, f.near = false :=
          runPrices_no_near pct _ ps (by rw [h1, hfr.2.1])
        rw [getD_near_false _ hall n]
        constructor
        · intro h; cases h
        · rintro ⟨-, -, hnone⟩
          exact absurd (by simpa using hband) (by simpa using hnone 0 (Nat.succ_pos n))
      · have hnf : (handle_signals pct ss p).2.near = false := by
          cases hx : (handle_signals pct ss p).2.near
          · rfl
          · exact absurd (hfire.mp hx) hband
        have hfr := handle_signals_frame pct ss p
        have hN1 : (handle_signals pct ss p).1.near_sent_for_4h = none := by
          rw [(handle_signals_near_sent pct ss p).2 hnf, hN]
        rw [ih (handle_signals pct ss p).1 (by rw [hfr.1, hH]) (by rw [hfr.2.1, hE])
          (by rw [hfr.2.2.1, hD]) hN1 n]
        constructor
        · rintro ⟨h1, h2, h3⟩
          refine ⟨Nat.succ_lt_succ h1, by simpa using h2, ?_⟩
          intro j hj
          cases j with
          | zero => simpa using hband
          | succ k => simpa using h3 k (Nat.lt_of_succ_lt_succ hj)
        · rintro ⟨h1, h2, h3⟩
          refine ⟨Nat.lt_of_succ_lt_succ h1, by simpa using h2, ?_⟩
          intro k hk
          simpa using h3 (k + 1) (Nat.succ_lt_succ hk)

/-! ## Claim theorems -/

/-- C1 counterexample: with level 100 armed for epoch 1 and NEAR_PCT 2%,
the price sequence `[100, 99]` first fires the break (price reached the
level), yet the later in-band price 99 still fires the near signal in the
same epoch — the code checks the near band *before* the break and a break
does not disqualify a later near fire. -/
theorem near_after_break_counterexample :
    (100 : ℚ) ≤ 100 ∧
    ((runPrices (2/100) (armedState 100 1 1) [100, 99]).2.getD 0
      ⟨false, false, false⟩).brk = true ∧
    ((runPrices (2/100) (armedState 100 1 1) [100, 99]).2.getD 1
      ⟨false, false, false⟩).near = true ∧
    (runPrices (2/100) (armedState 100 1 1) [100, 99]).1.last_4h_closed_open =
      (armedState 100 1 1).last_4h_closed_open := by decide

/-- C1 (amended): a single observation with price at or above the level
never fires the near signal (the band's upper bound is strict); but the
evaluator checks the near-band section before the break section, and a
recorded break does not disqualify a later near fire in the same epoch —
only a prior near fire (`near_sent_for_4h`) does. -/
theorem near_strict_bound_break_no_disqualify (pct L : ℚ) (ss : SymState) (p : ℚ) :
    (ss.last_4h_high = some L → L ≤ p →
      (handle_signals pct ss p).2.near = false) ∧
    (∀ e d : Nat, ss.last_4h_high = some L → L ≠ 0 →
      ss.last_4h_closed_open = some e → e ≠ 0 →
      ss.last_1d_closed_open = some d → d ≠ 0 →
      ss.near_sent_for_4h ≠ some e →
      L * (1 - pct) ≤ p → p < L →
      (handle_signals pct ss p).2.near = true) := by
  constructor
  · intro hH hge
    cases hx : (handle_signals pct ss p).2.near
    · rfl
    · obtain ⟨-, -, -, -, hlt, -⟩ := (handle_signals_near_iff pct ss p).mp hx
      rw [hH] at hlt
      exact absurd (lt_of_le_of_lt hge (by simpa using hlt)) (lt_irrefl L)
  · intro e d hH hL hE he hD hd hns hlow hhigh
    refine (handle_signals_near_iff pct ss p).mpr ?_
    rw [hH, hE, hD]
    refine ⟨by simp [truthyQ, hL], by simp [truthyNat, he], by simp [truthyNat, hd],
      by simpa using hlow, by simpa using hhigh, by simpa using hns⟩

/-- C1 amended witness at the post-break state: price 100 (at the level)
does not fire near; price 99 (in the band) does, although the break was
already recorded for this epoch. -/
theorem near_strict_bound_break_no_disqualify_witness :
    (handle_signals (2/100) postBreakState 100).2.near = false ∧
    (handle_signals (2/100) postBreakState 99).2.near = true :=
  ⟨(near_strict_bound_break_no_disqualify (2/100) 100 postBreakState 100).1 rfl (by decide),
    (near_strict_bound_break_no_disqualify (2/100) 100 postBreakState 99).2 1 1 rfl
      (by decide) rfl (by decide) rfl (by decide) (by decide) (by decide) (by decide)⟩

/-- C2: from a freshly armed state, the near signal fires exactly at the
first polled price in `[L·(1−nearPct), L)` and at no other observation;
in particular it never fires at a price `≥ L`. -/
theorem near_band_fires_once_at_first (pct L : ℚ) (e : Nat) (ss : SymState)
    (ps : List ℚ)
    (hH : ss.last_4h_high = some L) (hL : L ≠ 0)
    (hE : ss.last_4h_closed_open = some e) (he : e ≠ 0)
    (hD : truthyNat ss.last_1d_closed_open = true)
    (hN : ss.near_sent_for_4h = none) :
    (∀ i : Nat,
      ((runPrices pct ss ps).2.getD i ⟨false, false, false⟩).near = true ↔
        (i < ps.length ∧
          (L * (1 - pct) ≤ ps.getD i 0 ∧ ps.getD i 0 < L) ∧
          ∀ j < i, ¬(L * (1 - pct) ≤ ps.getD j 0 ∧ ps.getD j 0 < L))) ∧
    (∀ i : Nat, L ≤ ps.getD i 0 →
      ((runPrices pct ss ps).2.getD i ⟨false, false, false⟩).near = false) := by
  refine ⟨runPrices_near_first_fire pct L e ss ps hH hL hE he hD hN, ?_⟩
  intro i hge
  cases hx : ((runPrices pct ss ps).2.getD i ⟨false, false, false⟩).near
  · rfl
  · obtain ⟨-, ⟨-, hlt⟩, -⟩ :=
      (runPrices_near_first_fire pct L e ss ps hH hL hE he hD hN i).mp hx
    exact absurd (lt_of_le_of_lt hge hlt) (lt_irrefl _)

/-- C2 witness, the spec scenario: level 100, nearPct 2%, prices
`[95, 98.5, 99, 99.5, 100.5]` — near fires at 98.5 (index 1), not at 95,
not at the later in-band prices, and not at 100.5. -/
theorem near_band_fires_once_at_first_witness :
    ((runPrices (2/100) (armedState 100 1 1) [95, 197/2, 99, 199/2, 201/2]).2.getD 1
      ⟨false, false, false⟩).near = true ∧
    ((runPrices (2/100) (armedState 100 1 1) [95, 197/2, 99, 199/2, 201/2]).2.getD 2
      ⟨false, false, false⟩).near = false ∧
    ((runPrices (2/100) (armedState 100 1 1) [95, 197/2, 99, 199/2, 201/2]).2.getD 4
      ⟨false, false, false⟩).near = false := by
  have h := near_band_fires_once_at_first (2/100) 100 1 (armedState 100 1 1)
    [95, 197/2, 99, 199/2, 201/2] rfl (by decide) rfl (by decide) (by decide) rfl
  refine ⟨(h.1 1).mpr (by decide), ?_, h.2 4 (by decide)⟩
  cases hx : ((runPrices (2/100) (armedState 100 1 1)
      [95, 197/2, 99, 199/2, 201/2]).2.getD 2 ⟨false, false, false⟩).near
  · rfl
  · obtain ⟨-, -, hnone⟩ := (h.1 2).mp hx
    exact ((hnone 1 (by decide)) (by decide)).elim

/-- C4: over any rearm-free run of price observations, at most one near
message, at most one break message, and after every sell message no
further sell until the next break message (at most one sell per break
epoch). -/
theorem at_most_one_signal_per_epoch (pct : ℚ) (ss : SymState) (ps : List ℚ) :
    (runPrices pct ss ps).2.countP (fun f => f.near) ≤ 1 ∧
    (runPrices pct ss ps).2.countP (fun f => f.brk) ≤ 1 ∧
    goodSells (runPrices pct ss ps).2 = true :=
  ⟨runPrices_near_once pct ss ps, runPrices_brk_once pct ss ps,
    runPrices_goodSells pct ss ps⟩

/-- C3: BREAK-THEN-REVERSAL. (1) A break fire activates the upmove latch,
records the break epoch, and clears the sell-once marker (unless the same
observation's sell stage immediately fires, which re-records it); (2) with
no break firing this observation, the sell fires exactly when the latch is
active, the marker differs from the break epoch, the 15m fields are
loaded, and the price is below the 15m low; (3) a sell fire records the
marker; (4) while the marker matches the break epoch, no further sell
fires until a new break message. -/
theorem break_then_reversal_stages (pct : ℚ) :
    (∀ ss p, (handle_signals pct ss p).2.brk = true →
      (handle_signals pct ss p).1.upmove_active = true ∧
      (handle_signals pct ss p).1.upmove_started_4h =
        some (ss.last_4h_closed_open.getD 0) ∧
      ((handle_signals pct ss p).2.sell = false →
        (handle_signals pct ss p).1.sell_once_done_for_break = none)) ∧
    (∀ ss p, (handle_signals pct ss p).2.brk = false →
      ((handle_signals pct ss p).2.sell = true ↔
        (truthyQ ss.last_4h_high = true ∧ truthyNat ss.last_4h_closed_open = true ∧
          truthyNat ss.last_1d_closed_open = true ∧ ss.upmove_active = true ∧
          ss.sell_once_done_for_break ≠ ss.upmove_started_4h ∧
          truthyQ ss.last_15m_low = true ∧ truthyNat ss.last_15m_closed_open = true ∧
          p < ss.last_15m_low.getD 0))) ∧
    (∀ ss p, (handle_signals pct ss p).2.sell = true →
      (handle_signals pct ss p).1.sell_once_done_for_break =
        (handle_signals pct ss p).1.upmove_started_4h) ∧
    (∀ ss (ps : List ℚ), ss.sell_once_done_for_break = ss.upmove_started_4h →
      noSellUntilBrk (runPrices pct ss ps).2 = true) := by
  refine ⟨?_, ?_, ?_, ?_⟩
  · intro ss p h
    obtain ⟨h1, h2, h3, -⟩ := handle_signals_post_break pct ss p h
    exact ⟨h1, h2, h3⟩
  · intro ss p h
    exact handle_signals_sell_iff pct ss p h
  · intro ss p h
    exact handle_signals_post_sell pct ss p h
  · intro ss ps h
    exact runPrices_sell_blocked pct ss ps h

/-- C3 witness, the spec scenario with level 50 and secondary 48: the
break at 50 fires and arms the latch with a cleared marker; from the
post-break state, 47.9 fires the sell; afterwards no further sell fires on
[47, 46] without a new break. -/
theorem break_then_reversal_stages_witness :
    (handle_signals (2/100) brkRevState 50).2.brk = true ∧
    (handle_signals (2/100) brkRevState 50).1.upmove_active = true ∧
    (handle_signals (2/100) brkRevState 50).1.sell_once_done_for_break = none ∧
    (handle_signals (2/100) ((handle_signals (2/100) brkRevState 50).1)
      (479/10)).2.sell = true ∧
    noSellUntilBrk (runPrices (2/100)
      ((handle_signals (2/100) ((handle_signals (2/100) brkRevState 50).1)
        (479/10)).1) [47, 46]).2 = true := by
  have h1 := (break_then_reversal_stages (2/100)).1 brkRevState 50 (by decide)
  refine ⟨by decide, h1.1, h1.2.2 (by decide), ?_, ?_⟩
  · exact ((break_then_reversal_stages (2/100)).2.1 _ (479/10) (by decide)).mpr (by decide)
  · exact (break_then_reversal_stages (2/100)).2.2.2 _ [47, 46] (by decide)

/-- C6 counterexample: the stored 4h close marker is 200, the observed
last-closed open-time is 100 — a *decrease* — yet the code's `!=` check
treats it as a transition: the level is rearmed to the new high 77 and the
marker moves (backwards) to 100, contradicting "a decrease yields no
transition and triggers no rearm". -/
theorem marker_decrease_rearms_counterexample :
    (100 < 200) ∧
    (armedState 50 200 1).last_4h_closed_open = some 200 ∧
    (refresh_4h (armedState 50 200 1) 100 77).last_4h_closed_open = some 100 ∧
    (refresh_4h (armedState 50 200 1) 100 77).last_4h_high = some 77 ∧
    refresh_4h (armedState 50 200 1) 100 77 ≠ armedState 50 200 1 := by decide

/-- C6 (amended): *any change* of the observed last-closed open-time
(increase or decrease) yields a transition — rearming the level and
resetting the sent flags — and only a repeat yields none; likewise for
the 15m marker. -/
theorem close_marker_change_iff_rearm (ss : SymState) (o : Nat) (hi lo : ℚ) :
    (ss.last_4h_closed_open = some o → refresh_4h ss o hi = ss) ∧
    (ss.last_4h_closed_open ≠ some o →
      (refresh_4h ss o hi).last_4h_closed_open = some o ∧
      (refresh_4h ss o hi).last_4h_high = some hi ∧
      (refresh_4h ss o hi).near_sent_for_4h = none ∧
      (refresh_4h ss o hi).break_sent_for_4h = none) ∧
    (ss.last_15m_closed_open = some o → refresh_15m ss o lo = ss) ∧
    (ss.last_15m_closed_open ≠ some o →
      (refresh_15m ss o lo).last_15m_closed_open = some o ∧
      (refresh_15m ss o lo).last_15m_low = some lo) := by
  refine ⟨?_, ?_, ?_, ?_⟩
  · intro h; simp [refresh_4h, h]
  · intro h; simp [refresh_4h, h]
  · intro h; simp [refresh_15m, h]
  · intro h; simp [refresh_15m, h]

/-- C6 amended witness: a repeat (marker 5, observed 5) rearms nothing; a
change (marker 200, observed 100) rearms level and flags. -/
theorem close_marker_change_iff_rearm_witness :
    refresh_4h (armedState 50 5 1) 5 77 = armedState 50 5 1 ∧
    (refresh_4h (armedState 50 200 1) 100 77).last_4h_high = some 77 ∧
    (refresh_4h (armedState 50 200 1) 100 77).near_sent_for_4h = none := by
  have h1 := (close_marker_change_iff_rearm (armedState 50 5 1) 5 77 0).1 (by decide)
  have h2 := (close_marker_change_iff_rearm (armedState 50 200 1) 100 77 0).2.1 (by decide)
  exact ⟨h1, h2.2.1, h2.2.2.1⟩

/-- C7: `save_state` writes the full snapshot to the temp file and then
atomically renames it over the state file; at every possible crash point
the committed state file holds either the previous snapshot (untouched)
or the complete new one — never a partial write. -/
theorem save_state_crash_safe (snapshot : List Nat) (fs : FSState) :
    (save_state snapshot fs).stateFile = some snapshot ∧
    (save_state snapshot fs).tmpFile = none ∧
    ∀ cp : SaveCrash,
      (save_state_at snapshot fs cp).stateFile = fs.stateFile ∨
      (save_state_at snapshot fs cp).stateFile = some snapshot := by
  refine ⟨rfl, rfl, ?_⟩
  intro cp
  cases cp with
  | before => exact Or.inl rfl
  | duringWrite k => exact Or.inl rfl
  | afterWrite => exact Or.inl rfl
  | afterReplace => exact Or.inr rfl

/-- C10: with `last_4h_high`, `last_4h_closed_open` or
`last_1d_closed_open` falsy (missing, or equal to `0`/`0.0` — Python
truthiness cannot tell these apart), `handle_signals` returns at once,
firing nothing and mutating nothing; a falsy stored 15m low likewise
disables the sell stage. -/
theorem falsy_levels_disable_signals (pct : ℚ) (ss : SymState) (p : ℚ) :
    ((truthyQ ss.last_4h_high = false ∨ truthyNat ss.last_4h_closed_open = false ∨
        truthyNat ss.last_1d_closed_open = false) →
      handle_signals pct ss p = (ss, ⟨false, false, false⟩)) ∧
    (ss.last_4h_high = some 0 →
      handle_signals pct ss p = (ss, ⟨false, false, false⟩)) ∧
    (ss.last_4h_high = none →
      handle_signals pct ss p = (ss, ⟨false, false, false⟩)) ∧
    (truthyQ ss.last_15m_low = false →
      (handle_signals pct ss p).2.sell = false) := by
  have hmain : (truthyQ ss.last_4h_high = false ∨ truthyNat ss.last_4h_closed_open = false ∨
      truthyNat ss.last_1d_closed_open = false) →
      handle_signals pct ss p = (ss, ⟨false, false, false⟩) := by
    intro h
    apply handle_signals_eq_not
    rintro ⟨h1, h2, h3⟩
    rcases h with h | h | h <;> simp_all
  refine ⟨hmain, ?_, ?_, handle_signals_sell_needs_low pct ss p⟩
  · intro h
    exact hmain (Or.inl (by rw [h]; decide))
  · intro h
    exact hmain (Or.inl (by rw [h]; rfl))

/-- C10 witness: a level of exactly `0.0` behaves like a missing one (no
signal, no mutation), and a 15m low of `0.0` blocks the sell stage even
with the latch active. -/
theorem falsy_levels_disable_signals_witness :
    handle_signals (2/100) (armedState 0 1 1) 5 = (armedState 0 1 1, ⟨false, false, false⟩) ∧
    (handle_signals (2/100)
      { postBreakState with last_15m_low := some 0, last_15m_closed_open := some 1 }
      1).2.sell = false :=
  ⟨(falsy_levels_disable_signals (2/100) (armedState 0 1 1) 5).2.1 rfl,
    (falsy_levels_disable_signals (2/100)
      { postBreakState with last_15m_low := some 0, last_15m_closed_open := some 1 }
      1).2.2.2 (by decide)⟩

/-- Unfolding equation for one symbol of the refresh loop: the symbol's
state becomes whatever its refresh left behind, raise or not. -/
theorem loop_tick_cons (step : String → SymState → SymState × Option String)
    (st : String → SymState) (sym : String) (rest : List String) :
    loop_refresh_klines_tick step st (sym :: rest) =
      loop_refresh_klines_tick step
        (fun x => if x = sym then (step sym (st sym)).1 else st x) rest := rfl

/-- A symbol not in the tick's list keeps its state. -/
theorem loop_refresh_klines_tick_notmem
    (step : String → SymState → SymState × Option String)
    (st : String → SymState) (syms : List String) (sym : String)
    (h : sym ∉ syms) :
    loop_refresh_klines_tick step st syms sym = st sym := by
  induction syms generalizing st with
  | nil => rfl
  | cons a rest ih =>
    have hna : sym ≠ a := fun hEq => h (hEq ▸ List.mem_cons_self a rest)
    have hns : sym ∉ rest := fun hm => h (List.mem_cons_of_mem a hm)
    rw [loop_tick_cons, ih _ hns]
    simp [hna]

/-- Every listed symbol's final state is its own refresh outcome: a raise
while processing another symbol never reaches it, and the loop reaches
every symbol. -/
theorem loop_refresh_klines_tick_mem
    (step : String → SymState → SymState × Option String)
    (st : String → SymState) (syms : List String) (h : syms.Nodup) :
    ∀ sym ∈ syms,
      loop_refresh_klines_tick step st syms sym = (step sym (st sym)).1 := by
  induction syms generalizing st with
  | nil => intro sym hs; cases hs
  | cons a rest ih =>
    obtain ⟨hna, hnd⟩ := List.nodup_cons.mp h
    intro sym hs
    rcases List.mem_cons.mp hs with rfl | hmem
    · rw [loop_tick_cons, loop_refresh_klines_tick_notmem step _ rest sym hna]
      simp
    · have hne : sym ≠ a := fun hEq => hna (hEq ▸ hmem)
      rw [loop_tick_cons]
      have := ih (fun x => if x = a then (step a (st a)).1 else st x) hnd sym hmem
      simpa [hne] using this

/-- Unfolding equation: a successful interval iteration threads the
updated state to the remaining intervals. -/
theorem refresh_intervals_cons_ok (f : KlineInterval → Except String (List Candle))
    (ss : SymState) (iv : KlineInterval) (rest : List KlineInterval) (ss1 : SymState)
    (h : refresh_interval f ss iv = Except.ok ss1) :
    refresh_intervals f ss (iv :: rest) = refresh_intervals f ss1 rest := by
  conv_lhs => unfold refresh_intervals
  rw [h]

/-- Unfolding equation: a raising interval iteration aborts the remaining
intervals, keeping the state accumulated so far. -/
theorem refresh_intervals_cons_error (f : KlineInterval → Except String (List Candle))
    (ss : SymState) (iv : KlineInterval) (rest : List KlineInterval) (msg : String)
    (h : refresh_interval f ss iv = Except.error msg) :
    refresh_intervals f ss (iv :: rest) = (ss, some msg) := by
  conv_lhs => unfold refresh_intervals
  rw [h]

/-- An interval iteration whose fetch and `last_closed` succeed performs
its state write. -/
theorem refresh_interval_ok (f : KlineInterval → Except String (List Candle))
    (ss : SymState) (iv : KlineInterval) (closed : Candle)
    (h : fetch_closed f iv = Except.ok closed) :
    refresh_interval f ss iv = Except.ok (apply_interval ss iv closed) := by
  unfold refresh_interval
  rw [h]

/-- An interval iteration whose fetch or `last_closed` raises performs no
state write and propagates the message. -/
theorem refresh_interval_error (f : KlineInterval → Except String (List Candle))
    (ss : SymState) (iv : KlineInterval) (msg : String)
    (h : fetch_closed f iv = Except.error msg) :
    refresh_interval f ss iv = Except.error msg := by
  unfold refresh_interval
  rw [h]

/-- The 1w marker update touches none of the 4h/15m fields. -/
theorem refresh_1w_frame (ss : SymState) (o : Nat) :
    (refresh_1w ss o).last_4h_high = ss.last_4h_high ∧
    (refresh_1w ss o).last_4h_closed_open = ss.last_4h_closed_open ∧
    (refresh_1w ss o).last_15m_low = ss.last_15m_low ∧
    (refresh_1w ss o).last_15m_closed_open = ss.last_15m_closed_open := by
  unfold refresh_1w
  split <;> exact ⟨rfl, rfl, rfl, rfl⟩

/-- The 1d marker update touches none of the 4h/15m fields. -/
theorem refresh_1d_frame (ss : SymState) (o : Nat) :
    (refresh_1d ss o).last_4h_high = ss.last_4h_high ∧
    (refresh_1d ss o).last_4h_closed_open = ss.last_4h_closed_open ∧
    (refresh_1d ss o).last_15m_low = ss.last_15m_low ∧
    (refresh_1d ss o).last_15m_closed_open = ss.last_15m_closed_open := by
  unfold refresh_1d
  split <;> exact ⟨rfl, rfl, rfl, rfl⟩

/-- C8: failures while processing one symbol are caught at that symbol.
(1) Every listed symbol's final state is its own refresh outcome — a
raise in one symbol's refresh never aborts the loop nor affects another
symbol (the failing symbol keeps exactly the mutations its refresh made
before raising, as the in-place dict does); (2) unlisted symbols are
untouched; (3) with all four interval fetches succeeding, the symbol's
full unit of work runs, in source order; (4) a 4h fetch failure skips
that symbol's 4h rearm and the later 15m update for this tick and the
failure is reported, not propagated; (5) fewer than 2 candles raises in
`last_closed`, and (6) such insufficient data makes the iteration raise
like a fetch failure. -/
theorem per_symbol_failure_isolated
    (fetch : String → KlineInterval → Except String (List Candle))
    (st : String → SymState) (syms : List String) (h : syms.Nodup) :
    (∀ sym ∈ syms,
      loop_refresh_klines_tick
        (fun s ss => refresh_symbol_klines_cached (fetch s) ss) st syms sym =
        (refresh_symbol_klines_cached (fetch sym) (st sym)).1) ∧
    (∀ sym, sym ∉ syms →
      loop_refresh_klines_tick
        (fun s ss => refresh_symbol_klines_cached (fetch s) ss) st syms sym = st sym) ∧
    (∀ (f : KlineInterval → Except String (List Candle)) (ss : SymState) (c1 c2 c3 c4 : Candle),
      fetch_closed f KlineInterval.i1w = Except.ok c1 →
      fetch_closed f KlineInterval.i1d = Except.ok c2 →
      fetch_closed f KlineInterval.i4h = Except.ok c3 →
      fetch_closed f KlineInterval.i15m = Except.ok c4 →
      refresh_symbol_klines_cached f ss =
        (refresh_15m (refresh_4h (refresh_1d (refresh_1w ss c1.open_time) c2.open_time)
          c3.open_time c3.high) c4.open_time c4.low, none)) ∧
    (∀ (f : KlineInterval → Except String (List Candle)) (ss : SymState) (msg : String),
      f KlineInterval.i4h = Except.error msg →
      (refresh_symbol_klines_cached f ss).1.last_4h_high = ss.last_4h_high ∧
      (refresh_symbol_klines_cached f ss).1.last_4h_closed_open = ss.last_4h_closed_open ∧
      (refresh_symbol_klines_cached f ss).1.last_15m_low = ss.last_15m_low ∧
      (refresh_symbol_klines_cached f ss).1.last_15m_closed_open = ss.last_15m_closed_open ∧
      (refresh_symbol_klines_cached f ss).2.isSome = true) ∧
    (∀ cs : List Candle, cs.length < 2 →
      last_closed cs = Except.error "Not enough candles") ∧
    (∀ (f : KlineInterval → Except String (List Candle)) (iv : KlineInterval) (cs : List Candle),
      f iv = Except.ok cs → cs.length < 2 →
      fetch_closed f iv = Except.error "Not enough candles") := by
  refine ⟨loop_refresh_klines_tick_mem _ st syms h,
    fun sym hs => loop_refresh_klines_tick_notmem _ st syms sym hs, ?_, ?_,
    fun cs hcs => by simp [last_closed, hcs], ?_⟩
  · intro f ss c1 c2 c3 c4 h1 h2 h3 h4
    unfold refresh_symbol_klines_cached
    rw [refresh_intervals_cons_ok f _ KlineInterval.i1w _ _ (refresh_interval_ok f _ KlineInterval.i1w c1 h1),
      refresh_intervals_cons_ok f _ KlineInterval.i1d _ _ (refresh_interval_ok f _ KlineInterval.i1d c2 h2),
      refresh_intervals_cons_ok f _ KlineInterval.i4h _ _ (refresh_interval_ok f _ KlineInterval.i4h c3 h3),
      refresh_intervals_cons_ok f _ KlineInterval.i15m _ _ (refresh_interval_ok f _ KlineInterval.i15m c4 h4)]
    rfl
  · intro f ss msg h4h
    have h4 : fetch_closed f KlineInterval.i4h = Except.error msg := by
      unfold fetch_closed
      rw [h4h]
    unfold refresh_symbol_klines_cached
    cases hw : fetch_closed f KlineInterval.i1w with
    | error m =>
      rw [refresh_intervals_cons_error f ss KlineInterval.i1w _ m
        (refresh_interval_error f ss KlineInterval.i1w m hw)]
      exact ⟨rfl, rfl, rfl, rfl, rfl⟩
    | ok c1 =>
      rw [refresh_intervals_cons_ok f ss KlineInterval.i1w _ _
        (refresh_interval_ok f ss KlineInterval.i1w c1 hw)]
      cases hd : fetch_closed f KlineInterval.i1d with
      | error m =>
        rw [refresh_intervals_cons_error f _ KlineInterval.i1d _ m
          (refresh_interval_error f _ KlineInterval.i1d m hd)]
        have f1 := refresh_1w_frame ss c1.open_time
        exact ⟨f1.1, f1.2.1, f1.2.2.1, f1.2.2.2, rfl⟩
      | ok c2 =>
        rw [refresh_intervals_cons_ok f _ KlineInterval.i1d _ _
          (refresh_interval_ok f _ KlineInterval.i1d c2 hd)]
        rw [refresh_intervals_cons_error f _ KlineInterval.i4h _ msg
          (refresh_interval_error f _ KlineInterval.i4h msg h4)]
        have f1 := refresh_1w_frame ss c1.open_time
        have f2 := refresh_1d_frame (refresh_1w ss c1.open_time) c2.open_time
        exact ⟨f2.1.trans f1.1, f2.2.1.trans f1.2.1, f2.2.2.1.trans f1.2.2.1,
          f2.2.2.2.trans f1.2.2.2, rfl⟩
  · intro f iv cs hok hlen
    unfold fetch_closed
    rw [hok]
    simp [last_closed, hlen]

/-- C8 witness: with `AAAUSDT`'s 4h fetch raising and every other fetch
succeeding, the tick still fully refreshes `BBBUSDT` (its 4h level arms
at 10); `AAAUSDT` ends with exactly the partial mutations its refresh
made before the raise — 1w and 1d markers updated to 7, 4h level still
unarmed — and the error reported; an empty candle list raises in
`last_closed`. -/
theorem per_symbol_failure_isolated_witness :
    loop_refresh_klines_tick
      (fun s ss => refresh_symbol_klines_cached (fetchFails s) ss)
      (fun _ => initSymState) ["AAAUSDT", "BBBUSDT"] "BBBUSDT" =
      (refresh_symbol_klines_cached (fetchFails "BBBUSDT") initSymState).1 ∧
    (refresh_symbol_klines_cached (fetchFails "BBBUSDT") initSymState).1.last_4h_high =
      some 10 ∧
    loop_refresh_klines_tick
      (fun s ss => refresh_symbol_klines_cached (fetchFails s) ss)
      (fun _ => initSymState) ["AAAUSDT", "BBBUSDT"] "AAAUSDT" =
      (refresh_symbol_klines_cached (fetchFails "AAAUSDT") initSymState).1 ∧
    (refresh_symbol_klines_cached (fetchFails "AAAUSDT") initSymState).1.last_1w_closed_open =
      some 7 ∧
    (refresh_symbol_klines_cached (fetchFails "AAAUSDT") initSymState).1.last_1d_closed_open =
      some 7 ∧
    (refresh_symbol_klines_cached (fetchFails "AAAUSDT") initSymState).1.last_4h_high =
      none ∧
    (refresh_symbol_klines_cached (fetchFails "AAAUSDT") initSymState).2 =
      some "HTTPError" ∧
    last_closed [] = Except.error "Not enough candles" := by
  have h := per_symbol_failure_isolated fetchFails (fun _ => initSymState)
    ["AAAUSDT", "BBBUSDT"] (by decide)
  exact ⟨h.1 "BBBUSDT" (by decide), by decide, h.1 "AAAUSDT" (by decide), by decide,
    by decide, by decide, by decide, h.2.2.2.2.1 [] (by decide)⟩

/-- Every pair the ticker filter keeps has a symbol that passes all the
suffix and denylist checks. -/
theorem tickerKeep_sound (x : Ticker24) (pr : String × ℚ)
    (h : tickerKeep x = some pr) :
    pr.1 = x.symbol ∧
    strEndsWith pr.1 "USDT" = true ∧ strEndsWith pr.1 "BUSDUSDT" = false ∧
    strEndsWith pr.1 "USDCUSDT" = false ∧ strHasSub pr.1 "UPUSDT" = false ∧
    strHasSub pr.1 "DOWNUSDT" = false ∧ strHasSub pr.1 "BULLUSDT" = false ∧
    strHasSub pr.1 "BEARUSDT" = false := by
  unfold tickerKeep at h
  split at h
  · cases h
  case isFalse h1 =>
    split at h
    · cases h
    case isFalse h2 =>
      split at h
      · cases h
      case isFalse h3 =>
        cases hpc : x.priceChangePercent with
        | none => rw [hpc] at h; cases h
        | some pct =>
          rw [hpc] at h
          have hpr : pr = (x.symbol, pct) := (Option.some.inj h).symm
          subst hpr
          rw [not_not] at h1
          simp only [Bool.or_eq_true, not_or] at h2 h3
          exact ⟨rfl, h1, Bool.eq_false_iff.mpr h2.1, Bool.eq_false_iff.mpr h2.2,
            Bool.eq_false_iff.mpr h3.1.1.1, Bool.eq_false_iff.mpr h3.1.1.2,
            Bool.eq_false_iff.mpr h3.1.2, Bool.eq_false_iff.mpr h3.2⟩

/-- C9: on every ticker response and every `top_n`, `get_top_gainers`
returns at most `top_n` symbols; each returned symbol ends in "USDT" and
is neither a stable-stable pair nor a leveraged/inverse token; the output
is the prefix of the stably sorted (by descending 24h percent change)
filtered list, which is indeed ordered descending. -/
theorem get_top_gainers_spec :
    (∀ (data : List Ticker24) (n : Nat), (get_top_gainers data n).length ≤ n) ∧
    (∀ (data : List Ticker24) (n : Nat) (s : String), s ∈ get_top_gainers data n →
      strEndsWith s "USDT" = true ∧ strEndsWith s "BUSDUSDT" = false ∧
      strEndsWith s "USDCUSDT" = false ∧ strHasSub s "UPUSDT" = false ∧
      strHasSub s "DOWNUSDT" = false ∧ strHasSub s "BULLUSDT" = false ∧
      strHasSub s "BEARUSDT" = false) ∧
    (∀ (data : List Ticker24) (n : Nat),
      ((top_gainers_sorted data).take n).Pairwise (fun a b => b.2 ≤ a.2) ∧
      get_top_gainers data n = ((top_gainers_sorted data).take n).map Prod.fst) := by
  have hsorted : ∀ data : List Ticker24,
      (top_gainers_sorted data).Pairwise (fun a b : String × ℚ => b.2 ≤ a.2) := by
    intro data
    have h := @List.sorted_mergeSort (String × ℚ)
      (fun a b => decide (b.2 ≤ a.2))
      (fun a b c hab hbc => by
        simp only [decide_eq_true_eq] at hab hbc ⊢
        exact le_trans hbc hab)
      (fun a b => by
        simp only [Bool.or_eq_true, decide_eq_true_eq]
        exact le_total b.2 a.2)
      (top_gainers_usdt data)
    exact h.imp (fun hab => by simpa using hab)
  refine ⟨?_, ?_, ?_⟩
  · intro data n
    rw [get_top_gainers, List.length_map, List.length_take]
    exact min_le_left n _
  · intro data n s hs
    obtain ⟨pr, hpr, rfl⟩ := List.mem_map.mp hs
    have hmem : pr ∈ top_gainers_sorted data := List.mem_of_mem_take hpr
    have hfil : pr ∈ top_gainers_usdt data := List.mem_mergeSort.mp hmem
    obtain ⟨x, hx, hkeep⟩ := List.mem_filterMap.mp hfil
    obtain ⟨-, h2, h3, h4, h5, h6, h7, h8⟩ := tickerKeep_sound x pr hkeep
    exact ⟨h2, h3, h4, h5, h6, h7, h8⟩
  · intro data n
    exact ⟨(hsorted data).sublist (List.take_sublist n _), rfl⟩

/-- C9 witness: a one-row response keeps its USDT symbol, which passes the
filters, and the output length is within the bound. -/
theorem get_top_gainers_spec_witness :
    strEndsWith "AAAUSDT" "USDT" = true ∧ strHasSub "AAAUSDT" "UPUSDT" = false ∧
    (get_top_gainers tickersEx1 1).length ≤ 1 := by
  have hval : get_top_gainers tickersEx1 1 = ["AAAUSDT"] := by
    have h1 : top_gainers_usdt tickersEx1 = [("AAAUSDT", 5)] := rfl
    unfold get_top_gainers top_gainers_sorted
    rw [h1, List.mergeSort_singleton]
    rfl
  have hm : "AAAUSDT" ∈ get_top_gainers tickersEx1 1 := by
    rw [hval]; exact List.mem_singleton.mpr rfl
  obtain ⟨he, -, -, hup, -, -, -⟩ := get_top_gainers_spec.2.1 tickersEx1 1 "AAAUSDT" hm
  exact ⟨he, hup, get_top_gainers_spec.1 tickersEx1 1⟩

/-- Price observations never change the armed 4h level or its epoch. -/
theorem runPrices_level_frame (pct : ℚ) (ss : SymState) (ps : List ℚ) :
    (runPrices pct ss ps).1.last_4h_high = ss.last_4h_high ∧
    (runPrices pct ss ps).1.last_4h_closed_open = ss.last_4h_closed_open := by
  induction ps generalizing ss with
  | nil => exact ⟨rfl, rfl⟩
  | cons p ps ih =>
    rw [runPrices_cons]
    have hfr := handle_signals_frame pct ss p
    obtain ⟨ih1, ih2⟩ := ih (handle_signals pct ss p).1
    exact ⟨ih1.trans hfr.1, ih2.trans hfr.2.1⟩

/-- With the same klines and no signal fired in either scan, a repeated
3m analysis leaves `buy_level` and `trail_low` unchanged. -/
theorem run_analysis_levels_stable (lookback min_pullback : Nat) (st : SymbolState3m)
    (kl : List Candle) (p₁ p₂ n₁ n₂ : ℚ)
    (h₁ : (run_analysis_and_maybe_signal lookback min_pullback st kl p₁ n₁).2 = none)
    (h₂ : (run_analysis_and_maybe_signal lookback min_pullback
        (run_analysis_and_maybe_signal lookback min_pullback st kl p₁ n₁).1 kl p₂ n₂).2 = none) :
    (run_analysis_and_maybe_signal lookback min_pullback
        (run_analysis_and_maybe_signal lookback min_pullback st kl p₁ n₁).1 kl p₂ n₂).1.buy_level =
      (run_analysis_and_maybe_signal lookback min_pullback st kl p₁ n₁).1.buy_level ∧
    (run_analysis_and_maybe_signal lookback min_pullback
        (run_analysis_and_maybe_signal lookback min_pullback st kl p₁ n₁).1 kl p₂ n₂).1.trail_low =
      (run_analysis_and_maybe_signal lookback min_pullback st kl p₁ n₁).1.trail_low := by
  by_cases hkl : kl.length < 2
  · have e : ∀ (s : SymbolState3m) (p n : ℚ),
        run_analysis_and_maybe_signal lookback min_pullback s kl p n = (s, none) := by
      intro s p n
      simp only [run_analysis_and_maybe_signal, if_pos hkl]
    simp only [e]
    exact ⟨trivial, trivial⟩
  · by_cases hb : st.bought = false
    · cases hsetup : find_setup_levels lookback min_pullback kl with
      | none =>
        have e : ∀ (p n : ℚ),
            run_analysis_and_maybe_signal lookback min_pullback st kl p n = (st, none) := by
          intro p n
          simp only [run_analysis_and_maybe_signal, if_neg hkl, if_pos hb, hsetup]
        simp only [e]
        exact ⟨trivial, trivial⟩
      | some pr =>
        obtain ⟨bl, plr⟩ := pr
        by_cases hlt : bl < p₁
        · have e1 : (run_analysis_and_maybe_signal lookback min_pullback st kl p₁ n₁).2 =
              some Sig3m.buy := by
            simp only [run_analysis_and_maybe_signal, if_neg hkl, if_pos hb, hsetup, if_pos hlt]
          rw [e1] at h₁
          cases h₁
        · have e1 : run_analysis_and_maybe_signal lookback min_pullback st kl p₁ n₁ =
              ({ st with buy_level := bl }, none) := by
            simp only [run_analysis_and_maybe_signal, if_neg hkl, if_pos hb, hsetup, if_neg hlt]
          have hb' : ({ st with buy_level := bl } : SymbolState3m).bought = false := hb
          simp only [e1] at h₂ ⊢
          by_cases hlt2 : bl < p₂
          · have e2 : (run_analysis_and_maybe_signal lookback min_pullback
                { st with buy_level := bl } kl p₂ n₂).2 = some Sig3m.buy := by
              simp only [run_analysis_and_maybe_signal, if_neg hkl, if_pos hb', hsetup,
                if_pos hlt2]
            rw [e2] at h₂
            cases h₂
          · have e2 : run_analysis_and_maybe_signal lookback min_pullback
                { st with buy_level := bl } kl p₂ n₂ =
                ({ st with buy_level := bl }, none) := by
              simp only [run_analysis_and_maybe_signal, if_neg hkl, if_pos hb', hsetup,
                if_neg hlt2]
            simp only [e2]
            exact ⟨trivial, trivial⟩
    · by_cases hlt : p₁ < (kl.getD (kl.length - 2) ⟨0, 0, 0, 0, 0, 0⟩).low
      · have e1 : (run_analysis_and_maybe_signal lookback min_pullback st kl p₁ n₁).2 =
            some Sig3m.sell := by
          simp only [run_analysis_and_maybe_signal, if_neg hkl, if_neg hb, if_pos hlt]
        rw [e1] at h₁
        cases h₁
      · have e1 : run_analysis_and_maybe_signal lookback min_pullback st kl p₁ n₁ =
            ({ st with trail_low := (kl.getD (kl.length - 2) ⟨0, 0, 0, 0, 0, 0⟩).low }, none) := by
          simp only [run_analysis_and_maybe_signal, if_neg hkl, if_neg hb, if_neg hlt]
        have hb' : ¬(({ st with
            trail_low := (kl.getD (kl.length - 2) ⟨0, 0, 0, 0, 0, 0⟩).low } :
            SymbolState3m).bought = false) := hb
        simp only [e1] at h₂ ⊢
        by_cases hlt2 : p₂ < (kl.getD (kl.length - 2) ⟨0, 0, 0, 0, 0, 0⟩).low
        · have e2 : (run_analysis_and_maybe_signal lookback min_pullback
              { st with trail_low := (kl.getD (kl.length - 2) ⟨0, 0, 0, 0, 0, 0⟩).low }
              kl p₂ n₂).2 = some Sig3m.sell := by
            simp only [run_analysis_and_maybe_signal, if_neg hkl, if_neg hb', if_pos hlt2]
          rw [e2] at h₂
          cases h₂
        · have e2 : run_analysis_and_maybe_signal lookback min_pullback
              { st with trail_low := (kl.getD (kl.length - 2) ⟨0, 0, 0, 0, 0, 0⟩).low }
              kl p₂ n₂ =
              ({ st with trail_low := (kl.getD (kl.length - 2) ⟨0, 0, 0, 0, 0, 0⟩).low },
                none) := by
            simp only [run_analysis_and_maybe_signal, if_neg hkl, if_neg hb', if_neg hlt2]
          simp only [e2]
          exact ⟨trivial, trivial⟩

/-- C5: the armed reference level is unchanged between arm and rearm.
(1) A 4h refresh that observes the same last-closed open-time changes
nothing; (2) price observations, however many, never change
`last_4h_high` or the 4h marker; (3) in the 3m bot, with unchanged klines
and no BUY/SELL signal fired, a repeated scan leaves `buy_level` and
`trail_low` unchanged. -/
theorem level_immutable_between_rearms :
    (∀ (ss : SymState) (o : Nat) (hi : ℚ), ss.last_4h_closed_open = some o →
      refresh_4h ss o hi = ss) ∧
    (∀ (pct : ℚ) (ss : SymState) (ps : List ℚ),
      (runPrices pct ss ps).1.last_4h_high = ss.last_4h_high ∧
      (runPrices pct ss ps).1.last_4h_closed_open = ss.last_4h_closed_open) ∧
    (∀ (lookback min_pullback : Nat) (st : SymbolState3m) (kl : List Candle)
        (p₁ p₂ n₁ n₂ : ℚ),
      (run_analysis_and_maybe_signal lookback min_pullback st kl p₁ n₁).2 = none →
      (run_analysis_and_maybe_signal lookback min_pullback
        (run_analysis_and_maybe_signal lookback min_pullback st kl p₁ n₁).1 kl p₂ n₂).2 = none →
      (run_analysis_and_maybe_signal lookback min_pullback
        (run_analysis_and_maybe_signal lookback min_pullback st kl p₁ n₁).1 kl p₂ n₂).1.buy_level =
        (run_analysis_and_maybe_signal lookback min_pullback st kl p₁ n₁).1.buy_level ∧
      (run_analysis_and_maybe_signal lookback min_pullback
        (run_analysis_and_maybe_signal lookback min_pullback st kl p₁ n₁).1 kl p₂ n₂).1.trail_low =
        (run_analysis_and_maybe_signal lookback min_pullback st kl p₁ n₁).1.trail_low) := by
  refine ⟨?_, ?_, ?_⟩
  · intro ss o hi h
    simp [refresh_4h, h]
  · intro pct ss ps
    exact runPrices_level_frame pct ss ps
  · intro lookback min_pullback st kl p₁ p₂ n₁ n₂ h₁ h₂
    exact run_analysis_levels_stable lookback min_pullback st kl p₁ p₂ n₁ n₂ h₁ h₂

/-- C5 witness: a repeated 4h poll changes nothing; five price
observations leave the armed level at 100; and two 3m scans over the same
8-candle setup (prices below the 50 buy level, so no signal) keep
`buy_level` at 50. -/
theorem level_immutable_between_rearms_witness :
    refresh_4h (armedState 100 1 1) 1 100 = armedState 100 1 1 ∧
    (runPrices (2/100) (armedState 100 1 1) [95, 197/2, 99, 199/2, 201/2]).1.last_4h_high =
      some 100 ∧
    (run_analysis_and_maybe_signal 3 1
      (run_analysis_and_maybe_signal 3 1 st3m kl3m 45 0).1 kl3m 45 1).1.buy_level =
      (run_analysis_and_maybe_signal 3 1 st3m kl3m 45 0).1.buy_level := by
  refine ⟨?_, ?_, ?_⟩
  · exact level_immutable_between_rearms.1 (armedState 100 1 1) 1 100 rfl
  · exact (level_immutable_between_rearms.2.1 (2/100) (armedState 100 1 1)
      [95, 197/2, 99, 199/2, 201/2]).1
  · exact (level_immutable_between_rearms.2.2 3 1 st3m kl3m 45 45 0 1
      (by decide) (by decide)).1
